import Mathlib

/-!
# fplay: audio ring buffer, stream selection, playback loop and exit codes

A shallow embedding of `fplay.cpp` / `fplay.h`.  C `int` values are Lean `Int`s, conversions
between `size_t`/`unsigned` and `int` are written out modulo `2^32`, `std::vector<uint8_t>`
is a `List Byte`, and an operation whose C++ behaviour is undefined yields `none`.
Calls into FFmpeg and SDL are inputs of the model (return codes, decoded frames) or
parameters (the mixer).
-/

namespace fplay

/-! ## Machine integers and byte vectors -/

/-- One `uint8_t`. -/
abbrev Byte := Fin 256

/-- Conversion of an integer value to a 32-bit signed `int` (two's complement wrap), as it
happens to `a->buffer.size()` in `std::min<int>(len, a->buffer.size())` and to the
`unsigned i` assigned to `video_idx` / `audio_idx`. -/
def toInt32 (x : Int) : Int :=
  if x % 4294967296 < 2147483648 then x % 4294967296 else x % 4294967296 - 4294967296

/-- Conversion of an `int` to `Uint32` (the `len` parameter of `SDL_MixAudioFormat`). -/
def toUint32 (x : Int) : Nat :=
  (x % 4294967296).toNat

/-- `v.erase(v.begin() + first, v.begin() + last)`: defined only for a valid range
`0 <= first <= last <= v.size()`.  Returns the vector that remains and the erased run. -/
def vector_erase (v : List Byte) (first last : Int) : Option (List Byte × List Byte) :=
  if 0 ≤ first ∧ first ≤ last ∧ last ≤ (v.length : Int) then
    some (v.take first.toNat ++ v.drop last.toNat,
          (v.drop first.toNat).take (last.toNat - first.toNat))
  else
    none

/-- `v.insert(v.end(), src.begin(), src.begin() + count)`: defined only when
`[src.begin(), src.begin() + count)` is a valid range of `src`. -/
def vector_insert_end (v src : List Byte) (count : Int) : Option (List Byte) :=
  if 0 ≤ count ∧ count ≤ (src.length : Int) then some (v ++ src.take count.toNat) else none

/-! ## `fplay.h` -/

/-- FFmpeg sample formats (only the packed ones matter here). -/
inductive AVSampleFormat where
  | U8 | S16 | S32 | FLT | DBL
  deriving DecidableEq, Repr

/-- Modelled from the spec: `av_get_bytes_per_sample` is an FFmpeg routine that is not part
of the sources; the target format is "fixed-format interleaved samples", two bytes per
sample for the signed 16-bit format the player uses. -/
def av_get_bytes_per_sample : AVSampleFormat → Int
  | .U8 => 1
  | .S16 => 2
  | .S32 => 4
  | .FLT => 4
  | .DBL => 8

/-- `struct AudioState`.  The resampler pointer, the unused `dst_layout` and the mutex carry
no data of the model: every operation on `buffer` below is one atomic step, which is what the
`std::lock_guard` provides. -/
structure AudioState where
  dst_fmt : AVSampleFormat := AVSampleFormat.S16
  dst_rate : Int := 48000
  dst_channels : Int := 2
  buffer : List Byte := []
  deriving DecidableEq, Repr

/-! ## `sdl_audio_callback` -/

/-- `AUDIO_S16` (SDL header constant). -/
def AUDIO_S16 : Nat := 0x8010

/-- `SDL_MIX_MAXVOLUME` (SDL header constant). -/
def SDL_MIX_MAXVOLUME : Nat := 128

/-- The type of `SDL_MixAudioFormat dst src format len volume`, returning the new content of
the destination region.  SDL is an external library: the callback takes the mixer as a
parameter. -/
abbrev Mixer := List Byte → List Byte → Nat → Nat → Nat → List Byte

/-- The `Sint16` that two bytes hold in little-endian order. -/
def sint16_of_bytes (lo hi : Byte) : Int :=
  if (lo.val : Int) + 256 * (hi.val : Int) < 32768 then (lo.val : Int) + 256 * (hi.val : Int)
  else (lo.val : Int) + 256 * (hi.val : Int) - 65536

/-- The two bytes of a `Sint16`, in little-endian order. -/
def bytes_of_sint16 (s : Int) : List Byte :=
  [Fin.ofNat ((s % 65536).toNat % 256), Fin.ofNat ((s % 65536).toNat / 256)]

/-- One sample of the mix: the source sample scaled by `volume / SDL_MIX_MAXVOLUME` (C
division, towards zero), added to the destination sample, clamped to the `Sint16` range. -/
def mix_sample_s16 (volume : Nat) (src1 src2 : Int) : Int :=
  let src1 := Int.tdiv (src1 * (volume : Int)) (SDL_MIX_MAXVOLUME : Int)
  let dst_sample := src1 + src2
  if 32767 < dst_sample then 32767
  else if dst_sample < -32768 then -32768
  else dst_sample

/-- The sample loop of the mixer over `k` 16-bit samples; what lies behind them in the
destination is not touched. -/
def mix_s16 (volume : Nat) : Nat → List Byte → List Byte → List Byte
  | k + 1, d0 :: d1 :: dst, s0 :: s1 :: src =>
    bytes_of_sint16 (mix_sample_s16 volume (sint16_of_bytes s0 s1) (sint16_of_bytes d0 d1))
      ++ mix_s16 volume k dst src
  | _, dst, _ => dst

/-- Modelled from the spec: `SDL_MixAudioFormat` is an SDL routine that is not part of the
sources ("mix ... bytes into the output at fixed volume").  For the format `AUDIO_S16` of the
one call site it works on whole signed 16-bit samples: `len / 2` of them are mixed, so a last
odd byte is neither read nor written; volume 0 mixes nothing.  Other formats do not occur
and leave the destination as it is. -/
def SDL_MixAudioFormat : Mixer :=
  fun dst src format len volume =>
    if volume = 0 then dst
    else if format = AUDIO_S16 then mix_s16 volume (len / 2) dst src
    else dst

/-- The contract of the mixer at the one call site: mixing `n` bytes of `AUDIO_S16` at
maximum volume into a silent (all-zero) destination writes the whole samples among the first
`n` source bytes, that is the first `2 * (n / 2)` bytes, over the destination and touches
nothing else. -/
def MixesWholeSamples (mix : Mixer) : Prop :=
  ∀ (dst src : List Byte) (n : Nat), n ≤ src.length → n ≤ dst.length →
    (∀ x ∈ dst, x = 0) →
    mix dst src AUDIO_S16 n SDL_MIX_MAXVOLUME
      = src.take (2 * (n / 2)) ++ dst.drop (2 * (n / 2))

/-- What one invocation of the callback leaves behind. -/
structure CallbackResult where
  /-- The `len` output bytes at `stream`. -/
  stream : List Byte
  /-- The audio state afterwards. -/
  state : AudioState
  /-- How many bytes the mixer was told to read from `buffer.data()`. -/
  mixed : Nat
  /-- The run of bytes that `erase` removed. -/
  erased : List Byte
  deriving DecidableEq, Repr

/-- `fplay::sdl_audio_callback(userdata, stream, len)`.  `stream` is a region of `len` bytes
that `SDL_memset` overwrites entirely, so its previous content is not an input.  The result
is `none` where the C++ is undefined: a negative `len`, a mixer length beyond either region,
an invalid `erase` range. -/
def sdl_audio_callback (mix : Mixer) (a : AudioState) (len : Int) : Option CallbackResult :=
  if len < 0 then none
  else
    let stream : List Byte := List.replicate len.toNat 0
    if a.buffer.isEmpty then
      some { stream := stream, state := a, mixed := 0, erased := [] }
    else
      let n : Int := min len (toInt32 (a.buffer.length : Int))
      let cnt : Nat := toUint32 n
      if a.buffer.length < cnt ∨ stream.length < cnt then none
      else
        match vector_erase a.buffer 0 n with
        | none => none
        | some (rest, gone) =>
          some { stream := mix stream a.buffer AUDIO_S16 cnt SDL_MIX_MAXVOLUME,
                 state := { a with buffer := rest },
                 mixed := cnt,
                 erased := gone }

/-! ## `process_audio_packet` and `process_video_packet` -/

/-- What the resampler leaves for one decoded audio frame: the transient `outbuf` (of size
`max_out * dst_channels * bytes_per_sample`) after `swr_convert`, and the sample count `nb`
that `swr_convert` returned. -/
structure ResampledFrame where
  outbuf : List Byte
  nb : Int
  deriving DecidableEq, Repr

/-- `int out_bytes = nb * audio.dst_channels * av_get_bytes_per_sample(audio.dst_fmt);` -/
def out_bytes (audio : AudioState) (f : ResampledFrame) : Int :=
  f.nb * audio.dst_channels * av_get_bytes_per_sample audio.dst_fmt

/-- The locked statement
`audio.buffer.insert(audio.buffer.end(), outbuf.begin(), outbuf.begin() + out_bytes)`. -/
def locked_insert (audio : AudioState) (outbuf : List Byte) (count : Int) : Option AudioState :=
  match vector_insert_end audio.buffer outbuf count with
  | none => none
  | some b => some { audio with buffer := b }

/-- The `while (avcodec_receive_frame(...) == 0)` loop of `process_audio_packet`, over the
frames the decoder yields before it stops returning 0. -/
def receive_audio_frames : List ResampledFrame → AudioState → Option AudioState
  | [], audio => some audio
  | f :: fs, audio =>
    match locked_insert audio f.outbuf (out_bytes audio f) with
    | none => none
    | some audio1 => receive_audio_frames fs audio1

/-- `fplay::process_audio_packet`: `send_ret` is what `avcodec_send_packet` returns,
`frames` what the decoder then yields. -/
def process_audio_packet (send_ret : Int) (frames : List ResampledFrame) (audio : AudioState) :
    Option AudioState :=
  if send_ret ≠ 0 then some audio else receive_audio_frames frames audio

/-- Calls into the libraries that the playback loop and the video pipeline make. -/
inductive Effect where
  | av_read_frame
  | SDL_Delay (ms : Nat)
  | video_pipeline
  | audio_pipeline
  | sws_scale
  | SDL_UpdateYUVTexture
  | SDL_GetWindowSize
  | SDL_RenderClear
  | SDL_RenderCopy
  | SDL_RenderPresent
  | av_packet_unref
  deriving DecidableEq, Repr

/-- The library calls of the body of the `while` loop of `process_video_packet` for one
decoded frame. -/
def present_frame : List Effect :=
  [Effect.sws_scale, Effect.SDL_UpdateYUVTexture, Effect.SDL_GetWindowSize,
   Effect.SDL_RenderClear, Effect.SDL_RenderCopy, Effect.SDL_RenderPresent]

/-- The `while (avcodec_receive_frame(...) == 0)` loop of `process_video_packet`, over the
number of frames the decoder yields.  The arguments `sws`, `tex`, `ren`, `win` are `true`
when the pointer is not `nullptr`.  A frame has no defined result with a null `sws`
(`sws_scale` works on the context) or a null `win` (`SDL_Rect dst{0, 0, w, h}` reads the `w`,
`h` that `SDL_GetWindowSize` did not write); the SDL calls on a null texture or renderer fail
and return. -/
def receive_video_frames (sws tex ren win : Bool) : Nat → Option (List Effect)
  | 0 => some []
  | k + 1 =>
    if sws = false ∨ win = false then none
    else
      match receive_video_frames sws tex ren win k with
      | none => none
      | some es => some (present_frame ++ es)

/-- `fplay::process_video_packet`, as the library calls it issues: `send_ret` is what
`avcodec_send_packet` returns, `frames` the number of frames the decoder then yields. -/
def process_video_packet (sws tex ren win : Bool) (send_ret : Int) (frames : Nat) :
    Option (List Effect) :=
  if send_ret ≠ 0 then some [] else receive_video_frames sws tex ren win frames

/-- The library calls for `k` presented frames. -/
def video_frames_effects : Nat → List Effect
  | 0 => []
  | k + 1 => present_frame ++ video_frames_effects k

/-- The library calls of `process_video_packet` whenever it is defined. -/
def video_packet_effects (send_ret : Int) (frames : Nat) : List Effect :=
  if send_ret ≠ 0 then [] else video_frames_effects frames

/-- Whether an effect is a texture update or a render call. -/
def Effect.isRender : Effect → Bool
  | .SDL_UpdateYUVTexture => true
  | .SDL_RenderClear => true
  | .SDL_RenderCopy => true
  | .SDL_RenderPresent => true
  | _ => false

/-- Whether an effect belongs to the video pipeline (the call itself or anything it does). -/
def Effect.isVideo : Effect → Bool
  | .video_pipeline => true
  | .sws_scale => true
  | .SDL_GetWindowSize => true
  | e => e.isRender

/-! ## Histories of the ring buffer -/

/-- `enum AVMediaType`. -/
inductive AVMediaType where
  | UNKNOWN | VIDEO | AUDIO | DATA | SUBTITLE | ATTACHMENT
  deriving DecidableEq, Repr

/-- One entry of `fmt->streams`: its `codecpar->codec_type`, and whether
`avcodec_find_decoder(codecpar->codec_id)` finds a decoder for it. -/
structure AVStream where
  codec_type : AVMediaType
  decoder_found : Bool := true
  deriving DecidableEq, Repr

/-- `AVFormatContext`: the stream array; `nb_streams` is its length. -/
structure AVFormatContext where
  streams : List AVStream
  deriving DecidableEq, Repr

/-- The two output parameters of `find_stream_indices`. -/
structure StreamIndices where
  video_idx : Int
  audio_idx : Int
  deriving DecidableEq, Repr

/-- The body of the `for` loop at index `i`. -/
def find_stream_step (i : Nat) (st : AVStream) (r : StreamIndices) : StreamIndices :=
  if st.codec_type = AVMediaType.VIDEO ∧ r.video_idx < 0 then
    { r with video_idx := toInt32 (i : Int) }
  else if st.codec_type = AVMediaType.AUDIO ∧ r.audio_idx < 0 then
    { r with audio_idx := toInt32 (i : Int) }
  else r

/-- The `for (unsigned i = ...; i < fmt->nb_streams; ++i)` loop from index `i` on. -/
def find_stream_loop : List AVStream → Nat → StreamIndices → StreamIndices
  | [], _, r => r
  | st :: rest, i, r => find_stream_loop rest (i + 1) (find_stream_step i st r)

/-- `fplay::find_stream_indices`. -/
def find_stream_indices (fmt : AVFormatContext) : StreamIndices :=
  find_stream_loop fmt.streams 0 { video_idx := -1, audio_idx := -1 }

/-! ## Contexts and decoder set-up -/

/-- `struct VideoContext`; a pointer field is `true` when it is not `nullptr`. -/
structure VideoContext where
  dec_ctx : Bool := false
  sws_ctx : Bool := false
  window : Bool := false
  renderer : Bool := false
  texture : Bool := false
  width : Int := 0
  height : Int := 0
  deriving DecidableEq, Repr

/-- `AVChannelLayout` (FFmpeg 5 and later), by its channel count. -/
structure AVChannelLayout where
  nb_channels : Int
  deriving DecidableEq, Repr

/-- Modelled from the spec: `av_channel_layout_default` is an FFmpeg routine that is not
part of the sources; it yields the default layout for the given channel count ("defaulting
to stereo" for two channels), a layout with that many channels. -/
def av_channel_layout_default (nb_channels : Int) : AVChannelLayout :=
  { nb_channels := nb_channels }

/-- Modelled from the spec: `av_channel_layout_copy` is an FFmpeg routine that is not part
of the sources; the copy is the layout itself. -/
def av_channel_layout_copy (src : AVChannelLayout) : AVChannelLayout :=
  src

/-- A channel layout as the resampler receives it: an `AVChannelLayout` when
`LIBAVUTIL_VERSION_MAJOR >= 57`, a `uint64_t` mask before. -/
inductive ChannelLayout where
  | layout (l : AVChannelLayout)
  | mask (m : Nat)
  deriving DecidableEq, Repr

/-- The arguments of `swr_alloc_set_opts2` / `swr_alloc_set_opts`. -/
structure SwrOptions where
  out_ch_layout : ChannelLayout
  out_sample_fmt : AVSampleFormat
  out_sample_rate : Int
  in_ch_layout : ChannelLayout
  in_sample_fmt : AVSampleFormat
  in_sample_rate : Int
  deriving DecidableEq, Repr

/-- `struct AudioContext`; `swr_ctx` is `nullptr` (`none`) or a resampler context, known by
the options it was allocated with. -/
structure AudioContext where
  dec_ctx : Bool := false
  swr_ctx : Option SwrOptions := none
  state : AudioState := {}
  deriving DecidableEq, Repr

/-- What the libraries answer while the audio decoder is set up. -/
structure AudioDecoderEnv where
  /-- Return value of `avcodec_open2`. -/
  open2_ret : Int := 0
  /-- `dec_ctx->ch_layout` (FFmpeg 5 and later). -/
  ch_layout : AVChannelLayout := { nb_channels := 2 }
  /-- `dec_ctx->channels` (FFmpeg 4 and earlier). -/
  channels : Int := 2
  /-- `dec_ctx->channel_layout` (FFmpeg 4 and earlier). -/
  channel_layout : Nat := 0
  /-- `av_get_default_channel_layout` (FFmpeg 4 and earlier), an external table. -/
  av_get_default_channel_layout : Int → Nat := fun _ => 0
  /-- `dec_ctx->sample_fmt`. -/
  sample_fmt : AVSampleFormat := AVSampleFormat.S16
  /-- `dec_ctx->sample_rate`. -/
  sample_rate : Int := 48000
  /-- Return value of `swr_alloc_set_opts2`. -/
  swr_alloc_ret : Int := 0
  /-- Whether the allocation leaves a non-null context. -/
  swr_alloc_ok : Bool := true
  /-- Return value of `swr_init`. -/
  swr_init_ret : Int := 0

/-- How a call ends: it returns a `bool` and leaves the context it was given, or the
process exits through `ff_panic` / `sdl_panic`, or its behaviour is undefined. -/
inductive Call (α : Type) where
  | returned (value : Bool) (ctx : α)
  | exited (code : Int)
  | undefined

/-- The channel-layout negotiation of `init_audio_decoder` (both preprocessor branches):
the options with which the resampler context is allocated. -/
def resampler_options (version : Nat) (env : AudioDecoderEnv) (state : AudioState) :
    SwrOptions :=
  if 57 ≤ version then
    let in_ch_layout : AVChannelLayout :=
      if 0 < env.ch_layout.nb_channels then av_channel_layout_copy env.ch_layout
      else
        let ch := env.ch_layout.nb_channels
        let ch := if ch ≤ 0 then 2 else ch
        av_channel_layout_default ch
    let out_ch_layout := av_channel_layout_default state.dst_channels
    { out_ch_layout := ChannelLayout.layout out_ch_layout,
      out_sample_fmt := state.dst_fmt,
      out_sample_rate := state.dst_rate,
      in_ch_layout := ChannelLayout.layout in_ch_layout,
      in_sample_fmt := env.sample_fmt,
      in_sample_rate := env.sample_rate }
  else
    let in_channels := env.channels
    let in_channel_layout := env.channel_layout
    let in_channel_layout :=
      if in_channel_layout = 0 then
        let in_channels := if in_channels = 0 then 2 else in_channels
        env.av_get_default_channel_layout in_channels
      else in_channel_layout
    let out_ch_layout := env.av_get_default_channel_layout state.dst_channels
    { out_ch_layout := ChannelLayout.mask out_ch_layout,
      out_sample_fmt := state.dst_fmt,
      out_sample_rate := state.dst_rate,
      in_ch_layout := ChannelLayout.mask in_channel_layout,
      in_sample_fmt := env.sample_fmt,
      in_sample_rate := env.sample_rate }

/-- What a call of `init_audio_decoder` does: how it ends, and the options with which it
called `swr_alloc_set_opts2` / `swr_alloc_set_opts`, if it got that far. -/
structure AudioInit where
  outcome : Call AudioContext
  swr_alloc : Option SwrOptions

/-- `fplay::init_audio_decoder`; `version` is `LIBAVUTIL_VERSION_MAJOR`. -/
def init_audio_decoder (version : Nat) (fmt : AVFormatContext) (audio_idx : Int)
    (env : AudioDecoderEnv) (actx : AudioContext) : AudioInit :=
  if audio_idx < 0 then { outcome := Call.returned false actx, swr_alloc := none }
  else
    match fmt.streams.get? audio_idx.toNat with
    | none => { outcome := Call.undefined, swr_alloc := none }
    | some as =>
      if as.decoder_found = false then
        { outcome := Call.returned false actx, swr_alloc := none }
      else
        let actx1 := { actx with dec_ctx := true }
        if env.open2_ret < 0 then { outcome := Call.exited 1, swr_alloc := none }
        else
          let opts := resampler_options version env actx1.state
          let swr_ctx : Option SwrOptions := if env.swr_alloc_ok then some opts else none
          let alloc_failed : Bool :=
            if 57 ≤ version then decide (env.swr_alloc_ret < 0) || swr_ctx.isNone
            else swr_ctx.isNone
          { outcome :=
              if alloc_failed then Call.exited 1
              else if env.swr_init_ret < 0 then Call.exited 1
              else Call.returned true { actx1 with swr_ctx := swr_ctx },
            swr_alloc := some opts }

/-- Number of channels of a legacy `uint64_t` layout mask: its set bits. -/
def mask_nb_channels (m : Nat) : Int :=
  (((List.range 64).filter fun i => m.testBit i).length : Int)

/-- Number of channels of a layout handed to the resampler. -/
def ChannelLayout.nb_channels : ChannelLayout → Int
  | .layout l => l.nb_channels
  | .mask m => mask_nb_channels m

/-! ## The playback loop -/

/-- Modelled from the spec: `AVERROR_EOF` is an FFmpeg macro that is not part of the
sources; it is the negative code by which "read next packet" reports end-of-stream. -/
def AVERROR_EOF : Int := -541478725

/-- What `SDL_PollEvent` delivers. -/
inductive SDL_Event where
  | QUIT
  | KEYDOWN (sym : Int)
  | OTHER
  deriving DecidableEq, Repr

/-- `SDLK_q` (SDL header constant, the character code of `q`). -/
def SDLK_q : Int := 113

/-- The points of an iteration at which an asynchronous `SIGINT` can be delivered. -/
inductive SigintPoint where
  | beforeEvents
  | beforeRead
  | afterRead
  | endOfIteration
  deriving DecidableEq, Repr

/-- Everything the outside world contributes to one iteration of the loop. -/
structure IterInput where
  /-- Where in the iteration a `SIGINT` arrives, if one does. -/
  sigint : Option SigintPoint := none
  /-- The events `SDL_PollEvent` hands out before it returns 0. -/
  events : List SDL_Event := []
  /-- Return value of `av_read_frame`. -/
  read_ret : Int := 0
  /-- `pkt->stream_index`. -/
  stream_index : Int := 0
  /-- Return value of `avcodec_send_packet` for this packet. -/
  send_ret : Int := 0
  /-- Number of video frames the decoder yields for this packet. -/
  video_frames : Nat := 0
  /-- Resampled audio frames the decoder yields for this packet. -/
  audio_frames : List ResampledFrame := []
  deriving DecidableEq, Repr

/-- The state the loop works on: the global `g_running`, the audio state behind
`actx.state`, and the library calls issued so far. -/
structure LoopState where
  g_running : Bool := true
  audio : AudioState := {}
  trace : List Effect := []
  deriving DecidableEq, Repr

/-- `fplay::handle_sigint`. -/
def handle_sigint (s : LoopState) : LoopState :=
  { s with g_running := false }

/-- Delivery of the iteration's `SIGINT` at point `p`. -/
def sigint_at (p : SigintPoint) (it : IterInput) (s : LoopState) : LoopState :=
  if it.sigint = some p then handle_sigint s else s

/-- The body of `while (SDL_PollEvent(&e))` for one event. -/
def handle_event (e : SDL_Event) (s : LoopState) : LoopState :=
  match e with
  | .QUIT => { s with g_running := false }
  | .KEYDOWN sym => if sym = SDLK_q then { s with g_running := false } else s
  | .OTHER => s

/-- The loop `while (SDL_PollEvent(&e)) ...`. -/
def poll_events : List SDL_Event → LoopState → LoopState
  | [], s => s
  | e :: es, s => poll_events es (handle_event e s)

/-- The arguments of `run_playback_loop` that the loop reads. -/
structure LoopConfig where
  video_idx : Int
  audio_idx : Int
  vctx : VideoContext
  actx : AudioContext
  deriving DecidableEq, Repr

/-- Where the `if` / `else if` of the loop body sends a packet. -/
inductive Route where
  | video
  | audio
  | discard
  deriving DecidableEq, Repr

/-- The two conditions of the dispatch in the loop body. -/
def route (cfg : LoopConfig) (stream_index : Int) : Route :=
  if stream_index = cfg.video_idx ∧ cfg.vctx.dec_ctx = true then Route.video
  else if stream_index = cfg.audio_idx ∧ cfg.actx.dec_ctx = true then Route.audio
  else Route.discard

/-- The dispatch of one packet. -/
def dispatch (cfg : LoopConfig) (it : IterInput) (s : LoopState) : Option LoopState :=
  match route cfg it.stream_index with
  | .video =>
    match process_video_packet cfg.vctx.sws_ctx cfg.vctx.texture cfg.vctx.renderer
        cfg.vctx.window it.send_ret it.video_frames with
    | none => none
    | some es => some { s with trace := s.trace ++ Effect.video_pipeline :: es }
  | .audio =>
    match process_audio_packet it.send_ret it.audio_frames s.audio with
    | none => none
    | some a => some { s with audio := a, trace := s.trace ++ [Effect.audio_pipeline] }
  | .discard => some s

/-- How an iteration of the loop ends. -/
inductive LoopControl where
  | brk
  | next
  deriving DecidableEq, Repr

/-- The first half of the loop body: the event loop and the call of `av_read_frame`. -/
def read_packet (it : IterInput) (s : LoopState) : LoopState :=
  let s := sigint_at SigintPoint.beforeEvents it s
  let s := poll_events it.events s
  let s := sigint_at SigintPoint.beforeRead it s
  let s := { s with trace := s.trace ++ [Effect.av_read_frame] }
  sigint_at SigintPoint.afterRead it s

/-- One pass through the body of `while (g_running)`. -/
def loop_iteration (cfg : LoopConfig) (it : IterInput) (s : LoopState) :
    Option (LoopControl × LoopState) :=
  let s := read_packet it s
  if it.read_ret = AVERROR_EOF then some (LoopControl.brk, s)
  else if it.read_ret < 0 then
    let s := { s with trace := s.trace ++ [Effect.SDL_Delay 5] }
    some (LoopControl.next, sigint_at SigintPoint.endOfIteration it s)
  else
    match dispatch cfg it s with
    | none => none
    | some s =>
      let s := { s with trace := s.trace ++ [Effect.av_packet_unref] }
      some (LoopControl.next, sigint_at SigintPoint.endOfIteration it s)

/-- How the `while` loop stands after a finite script of iterations. -/
inductive LoopResult where
  | left (s : LoopState)
  | running (s : LoopState)
  | undefined
  deriving DecidableEq, Repr

/-- The loop `while (g_running) ...` against a script of iteration inputs. -/
def playback_while (cfg : LoopConfig) : List IterInput → LoopState → LoopResult
  | [], s => if s.g_running then LoopResult.running s else LoopResult.left s
  | it :: rest, s =>
    if s.g_running then
      match loop_iteration cfg it s with
      | none => LoopResult.undefined
      | some (LoopControl.brk, s1) => LoopResult.left s1
      | some (LoopControl.next, s1) => playback_while cfg rest s1
    else LoopResult.left s

/-- How `run_playback_loop` stands after a finite script. -/
inductive Outcome where
  | returned (code : Int) (s : LoopState)
  | exited (code : Int)
  | running (s : LoopState)
  | undefined
  deriving DecidableEq, Repr

/-- `fplay::run_playback_loop`; `yuv_ret` is what `av_frame_get_buffer` returns. -/
def run_playback_loop (cfg : LoopConfig) (yuv_ret : Int) (script : List IterInput)
    (s : LoopState) : Outcome :=
  if 0 ≤ cfg.video_idx ∧ yuv_ret < 0 then Outcome.exited 1
  else
    match playback_while cfg script s with
    | .left s1 => Outcome.returned 0 s1
    | .running s1 => Outcome.running s1
    | .undefined => Outcome.undefined

/-- Number of packets read in a trace. -/
def countReads (t : List Effect) : Nat :=
  t.count Effect.av_read_frame

/-- Number of packets handed to a pipeline in a trace. -/
def countDispatches (t : List Effect) : Nat :=
  t.count Effect.video_pipeline + t.count Effect.audio_pipeline

/-- Whether an iteration flips the Running Flag: a `SIGINT`, a window close, or the key
`q`. -/
def IterInput.stops (it : IterInput) : Bool :=
  it.sigint.isSome || it.events.any fun e => e == SDL_Event.QUIT || e == SDL_Event.KEYDOWN SDLK_q

/-! ## `main` -/

/-- Whether the allocation of the resampler counts as failed: `ret < 0 || !swr_ctx` with
FFmpeg 5 and later, `!swr_ctx` before. -/
def swr_alloc_failed (version : Nat) (env : AudioDecoderEnv) : Bool :=
  if 57 ≤ version then decide (env.swr_alloc_ret < 0) || !env.swr_alloc_ok
  else !env.swr_alloc_ok

/-- The video context as `main` leaves it when `init_video_decoder` and the window set-up
succeed. -/
def videoReady : VideoContext :=
  { dec_ctx := true, sws_ctx := true, window := true, renderer := true, texture := true,
    width := 640, height := 480 }

/-- The library calls of one pass through the loop body, read off the three cases of the
body: end-of-stream, read error, packet. -/
def iteration_effects (cfg : LoopConfig) (it : IterInput) : List Effect :=
  if it.read_ret = AVERROR_EOF then [Effect.av_read_frame]
  else if it.read_ret < 0 then [Effect.av_read_frame, Effect.SDL_Delay 5]
  else
    match route cfg it.stream_index with
    | .video =>
      Effect.av_read_frame :: Effect.video_pipeline ::
        (video_packet_effects it.send_ret it.video_frames ++ [Effect.av_packet_unref])
    | .audio => [Effect.av_read_frame, Effect.audio_pipeline, Effect.av_packet_unref]
    | .discard => [Effect.av_read_frame, Effect.av_packet_unref]

/-! ### Arithmetic of the conversions -/

theorem toInt32_lt (x : Int) : toInt32 x < 2147483648 := by
  unfold toInt32
  split <;> omega

theorem toInt32_le_self (x : Int) (hx : 0 ≤ x) : toInt32 x ≤ x := by
  unfold toInt32
  split <;> omega

theorem toInt32_of_lt (x : Int) (h0 : 0 ≤ x) (hx : x < 2147483648) : toInt32 x = x := by
  unfold toInt32
  split <;> omega

theorem toUint32_of_nonneg (n : Int) (h0 : 0 ≤ n) (hn : n < 2147483648) :
    toUint32 n = n.toNat := by
  unfold toUint32
  have : n % 4294967296 = n := by omega
  rw [this]

/-! ### Evaluating the callback -/

theorem vector_erase_front (v : List Byte) (n : Int) (h0 : 0 ≤ n) (hn : n ≤ (v.length : Int)) :
    vector_erase v 0 n = some (v.drop n.toNat, v.take n.toNat) := by
  unfold vector_erase
  rw [if_pos ⟨le_refl 0, h0, hn⟩]
  simp

theorem vector_erase_negative (v : List Byte) (n : Int) (hn : n < 0) :
    vector_erase v 0 n = none := by
  unfold vector_erase
  rw [if_neg]
  omega

/-- The callback on an empty buffer: silence, state untouched. -/
theorem sdl_audio_callback_empty (mix : Mixer) (a : AudioState) (len : Int) (hlen : 0 ≤ len)
    (hb : a.buffer = []) :
    sdl_audio_callback mix a len =
      some { stream := List.replicate len.toNat 0, state := a, mixed := 0, erased := [] } := by
  unfold sdl_audio_callback
  rw [if_neg (not_lt.mpr hlen)]
  simp [hb]

/-- The callback on a non-empty buffer whose size converts to a non-negative `int`. -/
theorem sdl_audio_callback_nonempty (mix : Mixer) (a : AudioState) (len : Int) (hlen : 0 ≤ len)
    (hb : a.buffer ≠ []) (hsz : 0 ≤ toInt32 (a.buffer.length : Int)) :
    sdl_audio_callback mix a len =
      some { stream := mix (List.replicate len.toNat 0) a.buffer AUDIO_S16
                         (min len (toInt32 (a.buffer.length : Int))).toNat SDL_MIX_MAXVOLUME,
             state := { a with buffer :=
                         a.buffer.drop (min len (toInt32 (a.buffer.length : Int))).toNat },
             mixed := (min len (toInt32 (a.buffer.length : Int))).toNat,
             erased := a.buffer.take (min len (toInt32 (a.buffer.length : Int))).toNat } := by
  have hle := toInt32_le_self (a.buffer.length : Int) (Int.natCast_nonneg _)
  have hlt := toInt32_lt (a.buffer.length : Int)
  have hn0 : 0 ≤ min len (toInt32 (a.buffer.length : Int)) := le_min hlen hsz
  have hn1 : min len (toInt32 (a.buffer.length : Int)) ≤ (a.buffer.length : Int) :=
    le_trans (min_le_right _ _) hle
  have hn2 : min len (toInt32 (a.buffer.length : Int)) < 2147483648 :=
    lt_of_le_of_lt (min_le_right _ _) hlt
  have hn3 : min len (toInt32 (a.buffer.length : Int)) ≤ len := min_le_left _ _
  have he : a.buffer.isEmpty = false := by
    cases hbuf : a.buffer with
    | nil => exact absurd hbuf hb
    | cons x xs => rfl
  unfold sdl_audio_callback
  rw [if_neg (not_lt.mpr hlen)]
  simp only [he, Bool.false_eq_true, if_false]
  rw [toUint32_of_nonneg _ hn0 hn2, vector_erase_front _ _ hn0 hn1]
  rw [if_neg]
  rw [List.length_replicate]
  omega

/-- The callback on a non-empty buffer whose size converts to a negative `int`: the count
`n` is negative and no step of the body is defined. -/
theorem sdl_audio_callback_wrapped (mix : Mixer) (a : AudioState) (len : Int) (hlen : 0 ≤ len)
    (hsz : toInt32 (a.buffer.length : Int) < 0) :
    sdl_audio_callback mix a len = none := by
  have hn : min len (toInt32 (a.buffer.length : Int)) < 0 :=
    lt_of_le_of_lt (min_le_right _ _) hsz
  have he : a.buffer.isEmpty = false := by
    cases hbuf : a.buffer with
    | nil =>
      rw [hbuf] at hsz
      exact absurd hsz (by decide)
    | cons x xs => rfl
  unfold sdl_audio_callback
  rw [if_neg (not_lt.mpr hlen)]
  simp only [he, Bool.false_eq_true, if_false, vector_erase_negative _ _ hn]
  split <;> rfl

/-! ## The callback removes a front run of the buffer -/

/-- The callback on any buffer whose size converts to a non-negative `int`. -/
theorem sdl_audio_callback_front (mix : Mixer) (a : AudioState) (len : Int)
    (hlen : 0 ≤ len) (hsz : 0 ≤ toInt32 (a.buffer.length : Int)) :
    ∃ r, sdl_audio_callback mix a len = some r ∧
      r.state = { a with buffer :=
                    a.buffer.drop (min len (toInt32 (a.buffer.length : Int))).toNat } ∧
      r.erased = a.buffer.take (min len (toInt32 (a.buffer.length : Int))).toNat := by
  by_cases hb : a.buffer = []
  · refine ⟨_, sdl_audio_callback_empty mix a len hlen hb, ?_, ?_⟩
    · cases a
      simp_all
    · simp [hb]
  · refine ⟨_, sdl_audio_callback_nonempty mix a len hlen hb hsz, ?_, ?_⟩
    · simp only
    · simp only

/-- Within the range of `int` the callback removes `min(len, size)` bytes from the front. -/
theorem sdl_audio_callback_in_range (mix : Mixer) (a : AudioState) (len : Int)
    (hlen : 0 ≤ len) (hsz : a.buffer.length < 2147483648) :
    ∃ r, sdl_audio_callback mix a len = some r ∧
      r.state = { a with buffer := a.buffer.drop (min len.toNat a.buffer.length) } ∧
      r.erased = a.buffer.take (min len.toNat a.buffer.length) := by
  have h1 := toInt32_of_lt (a.buffer.length : Int) (Int.natCast_nonneg _) (by omega)
  have h2 : (min len (toInt32 (a.buffer.length : Int))).toNat
      = min len.toNat a.buffer.length := by
    rw [h1]
    omega
  obtain ⟨r, hr, hst, her⟩ := sdl_audio_callback_front mix a len hlen
    (by rw [h1]; exact Int.natCast_nonneg _)
  rw [h2] at hst her
  exact ⟨r, hr, hst, her⟩

/-! ### The mixer of the model meets its contract -/

theorem mix_sample_into_silence (s0 s1 : Byte) :
    bytes_of_sint16 (mix_sample_s16 SDL_MIX_MAXVOLUME (sint16_of_bytes s0 s1)
      (sint16_of_bytes 0 0)) = [s0, s1] := by
  have h0 : sint16_of_bytes 0 0 = 0 := by decide
  have hb0 := s0.isLt
  have hb1 := s1.isLt
  have hlo : -32768 ≤ sint16_of_bytes s0 s1 := by
    unfold sint16_of_bytes
    split <;> omega
  have hhi : sint16_of_bytes s0 s1 ≤ 32767 := by
    unfold sint16_of_bytes
    split <;> omega
  have hmod : (sint16_of_bytes s0 s1 % 65536).toNat = s0.val + 256 * s1.val := by
    unfold sint16_of_bytes
    split <;> omega
  have hmix : mix_sample_s16 SDL_MIX_MAXVOLUME (sint16_of_bytes s0 s1) 0
      = sint16_of_bytes s0 s1 := by
    unfold mix_sample_s16
    simp only
    rw [Int.mul_tdiv_cancel _ (by decide), Int.add_zero, if_neg (by omega), if_neg (by omega)]
  rw [h0, hmix]
  unfold bytes_of_sint16
  rw [hmod]
  have e0 : (Fin.ofNat ((s0.val + 256 * s1.val) % 256) : Byte) = s0 := by
    apply Fin.ext
    show (s0.val + 256 * s1.val) % 256 % 256 = s0.val
    omega
  have e1 : (Fin.ofNat ((s0.val + 256 * s1.val) / 256) : Byte) = s1 := by
    apply Fin.ext
    show (s0.val + 256 * s1.val) / 256 % 256 = s1.val
    omega
  rw [e0, e1]

theorem mix_s16_into_silence (k : Nat) :
    ∀ dst src : List Byte, 2 * k ≤ src.length → 2 * k ≤ dst.length → (∀ x ∈ dst, x = 0) →
      mix_s16 SDL_MIX_MAXVOLUME k dst src = src.take (2 * k) ++ dst.drop (2 * k) := by
  induction k with
  | zero =>
    intro dst src _ _ _
    cases dst <;> cases src <;> simp [mix_s16]
  | succ k ih =>
    intro dst src hs hd hz
    match dst, src, hs, hd, hz with
    | d0 :: d1 :: dst, s0 :: s1 :: src, hs, hd, hz =>
      have hd0 : d0 = 0 := hz d0 (by simp)
      have hd1 : d1 = 0 := hz d1 (by simp)
      simp only [List.length_cons] at hs hd
      have hmul : 2 * (k + 1) = (2 * k + 1) + 1 := by omega
      rw [hmul]
      simp only [mix_s16, List.take_succ_cons, List.drop_succ_cons, List.cons_append]
      rw [hd0, hd1, mix_sample_into_silence,
        ih dst src (by omega) (by omega) (fun x hx => hz x (by simp [hx]))]
      rfl
    | [], _, _, hd, _ => simp at hd
    | [_], _, _, hd, _ =>
      simp only [List.length_cons, List.length_nil] at hd
      omega
    | _ :: _ :: _, [], hs, _, _ => simp at hs
    | _ :: _ :: _, [_], hs, _, _ =>
      simp only [List.length_cons, List.length_nil] at hs
      omega

theorem SDL_MixAudioFormat_wholeSamples : MixesWholeSamples SDL_MixAudioFormat := by
  intro dst src n hs hd hz
  unfold SDL_MixAudioFormat
  rw [if_neg (by decide), if_pos rfl]
  exact mix_s16_into_silence (n / 2) dst src (by omega) (by omega) hz

/-! ### Buffers of `2^31` bytes and more -/

/-- C1, the code at two failing inputs (one defect, the narrowing of `a->buffer.size()` in
`std::min<int>`): on a buffer of `2^31` bytes with one byte requested the size converts to
`INT_MIN`, the count `n` is negative and the call has no defined result, where the claim has
one byte removed; on a buffer of `2^32 + 4` bytes with eight bytes requested the size converts
to 4 and the call removes four bytes, where the claim has `min(8, 2^32 + 4) = 8` removed. -/
theorem sdl_audio_callback_two_gib_buffer :
    sdl_audio_callback SDL_MixAudioFormat { buffer := List.replicate 2147483648 0 } 1 = none ∧
    (sdl_audio_callback SDL_MixAudioFormat { buffer := List.replicate 4294967300 1 } 8).map
        (fun r => r.erased) = some [1, 1, 1, 1] := by
  constructor
  · apply sdl_audio_callback_wrapped
    · decide
    · show toInt32 ((List.replicate 2147483648 (0 : Byte)).length : Int) < 0
      rw [List.length_replicate]
      decide
  · have hl : (({ buffer := List.replicate 4294967300 1 } : AudioState).buffer.length : Int)
        = 4294967300 := by
      show ((List.replicate 4294967300 (1 : Byte)).length : Int) = 4294967300
      rw [List.length_replicate]
      rfl
    have ht : toInt32 4294967300 = 4 := by decide
    rw [sdl_audio_callback_nonempty SDL_MixAudioFormat _ 8 (by decide)
      (by
        show List.replicate 4294967300 (1 : Byte) ≠ []
        intro h
        have := congrArg List.length h
        rw [List.length_replicate] at this
        exact absurd this (by decide))
      (by rw [hl, ht]; decide)]
    rw [hl, ht]
    have h4 : (min (8 : Int) 4).toNat = 4 := by decide
    rw [h4]
    show some ((List.replicate 4294967300 (1 : Byte)).take 4) = _
    rw [List.take_replicate]
    rfl

/-! ## The output of the callback -/

/-- C2, as amended: for every buffer shorter than `2^31` bytes and every requested count
`len >= 0`, with a mixer that mixes whole 16-bit samples, `sdl_audio_callback` returns, tells
the mixer to read `n = min(len, size)` bytes (never a position at or beyond the size), and
leaves an output of exactly `len` bytes: the whole samples among the first `n` bytes of the
buffer, that is its first `2 * (n / 2)` bytes (all `n` of them when `n` is even), followed by
zeros; on an empty buffer the output is `len` zeros and the state is unchanged. -/
theorem sdl_audio_callback_output (mix : Mixer) (a : AudioState) (len : Int)
    (hmix : MixesWholeSamples mix) (hlen : 0 ≤ len) (hsz : a.buffer.length < 2147483648) :
    ∃ r, sdl_audio_callback mix a len = some r ∧
      r.mixed = min len.toNat a.buffer.length ∧
      r.mixed ≤ a.buffer.length ∧
      r.stream.length = len.toNat ∧
      r.stream = a.buffer.take (2 * (min len.toNat a.buffer.length / 2))
                   ++ List.replicate (len.toNat - 2 * (min len.toNat a.buffer.length / 2)) 0 ∧
      (min len.toNat a.buffer.length % 2 = 0 →
        r.stream = a.buffer.take (min len.toNat a.buffer.length)
                     ++ List.replicate (len.toNat - min len.toNat a.buffer.length) 0) ∧
      (a.buffer = [] → r.stream = List.replicate len.toNat 0 ∧ r.state = a) := by
  by_cases hb : a.buffer = []
  · refine ⟨_, sdl_audio_callback_empty mix a len hlen hb, ?_, ?_, ?_, ?_, ?_, ?_⟩
    · simp [hb]
    · simp
    · simp
    · simp [hb]
    · intro _
      simp [hb]
    · intro _
      exact ⟨rfl, rfl⟩
  · have h1 := toInt32_of_lt (a.buffer.length : Int) (Int.natCast_nonneg _) (by omega)
    have h2 : (min len (toInt32 (a.buffer.length : Int))).toNat
        = min len.toNat a.buffer.length := by
      rw [h1]
      omega
    have hsz0 : 0 ≤ toInt32 (a.buffer.length : Int) := by
      rw [h1]
      exact Int.natCast_nonneg _
    have hm := hmix (List.replicate len.toNat 0) a.buffer (min len.toNat a.buffer.length)
      (min_le_right _ _) (by rw [List.length_replicate]; exact min_le_left _ _)
      (fun x hx => List.eq_of_mem_replicate hx)
    have hstream : mix (List.replicate len.toNat 0) a.buffer AUDIO_S16
        (min len (toInt32 (a.buffer.length : Int))).toNat SDL_MIX_MAXVOLUME
        = a.buffer.take (2 * (min len.toNat a.buffer.length / 2))
            ++ List.replicate (len.toNat - 2 * (min len.toNat a.buffer.length / 2)) 0 := by
      rw [h2, hm, List.drop_replicate]
    refine ⟨_, sdl_audio_callback_nonempty mix a len hlen hb hsz0, ?_, ?_, ?_, ?_, ?_, ?_⟩
    · simp only
      exact h2
    · simp only
      rw [h2]
      exact min_le_right _ _
    · simp only
      rw [hstream, List.length_append, List.length_take, List.length_replicate]
      omega
    · simp only
      exact hstream
    · intro heven
      simp only
      have he : 2 * (min len.toNat a.buffer.length / 2) = min len.toNat a.buffer.length := by
        omega
      rw [hstream, he]
    · intro h
      exact absurd h hb

/-- Witness of C2 on the buffer `7, 8` with five bytes requested. -/
theorem sdl_audio_callback_output_witness :
    MixesWholeSamples SDL_MixAudioFormat ∧ (0 : Int) ≤ 5 ∧
    ∃ r, sdl_audio_callback SDL_MixAudioFormat { buffer := [7, 8] } 5 = some r ∧
      r.mixed = 2 ∧ r.stream = [7, 8, 0, 0, 0] := by
  refine ⟨SDL_MixAudioFormat_wholeSamples, by decide, ?_⟩
  obtain ⟨r, h1, h2, _, _, h5, _⟩ :=
    sdl_audio_callback_output SDL_MixAudioFormat { buffer := [7, 8] } 5
      SDL_MixAudioFormat_wholeSamples (by decide) (by decide)
  refine ⟨r, h1, ?_, ?_⟩
  · rw [h2]
    decide
  · rw [h5]
    decide

/-- C2 fails as stated: on the buffer `1, 2, 3` with three bytes requested the mixer is told
to mix three bytes of 16-bit samples and mixes the one whole sample, so the output is
`1, 2, 0` and not the first `min(3, 3) = 3` buffer bytes `1, 2, 3`, while all three bytes
leave the buffer. -/
theorem sdl_audio_callback_odd_count :
    sdl_audio_callback SDL_MixAudioFormat { buffer := [1, 2, 3] } 3
      = some { stream := [1, 2, 0], state := { buffer := [] }, mixed := 3,
               erased := [1, 2, 3] } ∧
    ([1, 2, 0] : List Byte)
      ≠ ([1, 2, 3] : List Byte).take (min 3 3) ++ List.replicate (3 - min 3 3) 0 := by
  constructor
  · decide
  · decide

/-! ## FIFO over histories -/

theorem find_stream_step_video (i : Nat) (st : AVStream) (r : StreamIndices)
    (ht : st.codec_type = AVMediaType.VIDEO) (hr : r.video_idx < 0) :
    (find_stream_step i st r).video_idx = toInt32 (i : Int) := by
  unfold find_stream_step
  rw [if_pos ⟨ht, hr⟩]

theorem find_stream_step_video_keep (i : Nat) (st : AVStream) (r : StreamIndices)
    (h : st.codec_type ≠ AVMediaType.VIDEO ∨ 0 ≤ r.video_idx) :
    (find_stream_step i st r).video_idx = r.video_idx := by
  unfold find_stream_step
  rw [if_neg (by rintro ⟨h1, h2⟩; rcases h with h | h; exact h h1; omega)]
  split <;> rfl

theorem find_stream_step_audio (i : Nat) (st : AVStream) (r : StreamIndices)
    (ht : st.codec_type = AVMediaType.AUDIO) (hr : r.audio_idx < 0) :
    (find_stream_step i st r).audio_idx = toInt32 (i : Int) := by
  unfold find_stream_step
  rw [if_neg (by rintro ⟨h1, _⟩; rw [ht] at h1; cases h1), if_pos ⟨ht, hr⟩]

theorem find_stream_step_audio_keep (i : Nat) (st : AVStream) (r : StreamIndices)
    (h : st.codec_type ≠ AVMediaType.AUDIO ∨ 0 ≤ r.audio_idx) :
    (find_stream_step i st r).audio_idx = r.audio_idx := by
  unfold find_stream_step
  split
  · rfl
  · rw [if_neg (by rintro ⟨h1, h2⟩; rcases h with h | h; exact h h1; omega)]

theorem find_stream_loop_video_keep (l : List AVStream) :
    ∀ (i : Nat) (r : StreamIndices),
      (0 ≤ r.video_idx ∨ ∀ st ∈ l, st.codec_type ≠ AVMediaType.VIDEO) →
      (find_stream_loop l i r).video_idx = r.video_idx := by
  induction l with
  | nil =>
    intro i r _
    rfl
  | cons x xs ih =>
    intro i r h
    have hstep : (find_stream_step i x r).video_idx = r.video_idx := by
      apply find_stream_step_video_keep
      rcases h with h | h
      · exact Or.inr h
      · exact Or.inl (h x (List.mem_cons_self _ _))
    unfold find_stream_loop
    rw [ih (i + 1) (find_stream_step i x r), hstep]
    rcases h with h | h
    · left
      rw [hstep]
      exact h
    · right
      intro st hst
      exact h st (List.mem_cons_of_mem _ hst)

theorem find_stream_loop_audio_keep (l : List AVStream) :
    ∀ (i : Nat) (r : StreamIndices),
      (0 ≤ r.audio_idx ∨ ∀ st ∈ l, st.codec_type ≠ AVMediaType.AUDIO) →
      (find_stream_loop l i r).audio_idx = r.audio_idx := by
  induction l with
  | nil =>
    intro i r _
    rfl
  | cons x xs ih =>
    intro i r h
    have hstep : (find_stream_step i x r).audio_idx = r.audio_idx := by
      apply find_stream_step_audio_keep
      rcases h with h | h
      · exact Or.inr h
      · exact Or.inl (h x (List.mem_cons_self _ _))
    unfold find_stream_loop
    rw [ih (i + 1) (find_stream_step i x r), hstep]
    rcases h with h | h
    · left
      rw [hstep]
      exact h
    · right
      intro st hst
      exact h st (List.mem_cons_of_mem _ hst)

theorem find_stream_loop_video_first (l : List AVStream) :
    ∀ (i : Nat) (r : StreamIndices) (k : Nat) (st : AVStream),
      r.video_idx < 0 → i + k < 2147483648 →
      l[k]? = some st → st.codec_type = AVMediaType.VIDEO →
      (∀ (j : Nat) (sj : AVStream), j < k → l[j]? = some sj →
        sj.codec_type ≠ AVMediaType.VIDEO) →
      (find_stream_loop l i r).video_idx = ((i + k : Nat) : Int) := by
  induction l with
  | nil =>
    intro i r k st _ _ hk
    simp at hk
  | cons x xs ih =>
    intro i r k st hr hlt hk ht hbefore
    unfold find_stream_loop
    cases k with
    | zero =>
      simp only [List.getElem?_cons_zero, Option.some.injEq] at hk
      subst hk
      have hstep := find_stream_step_video i x r ht hr
      have hval : toInt32 (i : Int) = (i : Int) :=
        toInt32_of_lt _ (Int.natCast_nonneg _) (by omega)
      rw [find_stream_loop_video_keep xs (i + 1) _ (Or.inl (by rw [hstep, hval]; omega)),
        hstep, hval]
      rfl
    | succ k =>
      simp only [List.getElem?_cons_succ] at hk
      have hx : x.codec_type ≠ AVMediaType.VIDEO :=
        hbefore 0 x (Nat.succ_pos k) (by simp)
      have hstep := find_stream_step_video_keep i x r (Or.inl hx)
      rw [ih (i + 1) (find_stream_step i x r) k st (by rw [hstep]; exact hr) (by omega) hk ht
        (fun j sj hj hsj => hbefore (j + 1) sj (by omega) (by simpa using hsj))]
      congr 1
      omega

theorem find_stream_loop_audio_first (l : List AVStream) :
    ∀ (i : Nat) (r : StreamIndices) (k : Nat) (st : AVStream),
      r.audio_idx < 0 → i + k < 2147483648 →
      l[k]? = some st → st.codec_type = AVMediaType.AUDIO →
      (∀ (j : Nat) (sj : AVStream), j < k → l[j]? = some sj →
        sj.codec_type ≠ AVMediaType.AUDIO) →
      (find_stream_loop l i r).audio_idx = ((i + k : Nat) : Int) := by
  induction l with
  | nil =>
    intro i r k st _ _ hk
    simp at hk
  | cons x xs ih =>
    intro i r k st hr hlt hk ht hbefore
    unfold find_stream_loop
    cases k with
    | zero =>
      simp only [List.getElem?_cons_zero, Option.some.injEq] at hk
      subst hk
      have hstep := find_stream_step_audio i x r ht hr
      have hval : toInt32 (i : Int) = (i : Int) :=
        toInt32_of_lt _ (Int.natCast_nonneg _) (by omega)
      rw [find_stream_loop_audio_keep xs (i + 1) _ (Or.inl (by rw [hstep, hval]; omega)),
        hstep, hval]
      rfl
    | succ k =>
      simp only [List.getElem?_cons_succ] at hk
      have hx : x.codec_type ≠ AVMediaType.AUDIO :=
        hbefore 0 x (Nat.succ_pos k) (by simp)
      have hstep := find_stream_step_audio_keep i x r (Or.inl hx)
      rw [ih (i + 1) (find_stream_step i x r) k st (by rw [hstep]; exact hr) (by omega) hk ht
        (fun j sj hj hsj => hbefore (j + 1) sj (by omega) (by simpa using hsj))]
      congr 1
      omega

theorem getElem_some_lt_length (l : List AVStream) (k : Nat) (st : AVStream)
    (h : l[k]? = some st) : k < l.length := by
  by_contra hk
  rw [List.getElem?_eq_none (by omega)] at h
  cases h

theorem find_stream_loop_append (l later : List AVStream) :
    ∀ (i : Nat) (r : StreamIndices),
      find_stream_loop (l ++ later) i r
        = find_stream_loop later (i + l.length) (find_stream_loop l i r) := by
  induction l with
  | nil =>
    intro i r
    rfl
  | cons x xs ih =>
    intro i r
    have hadd : i + (x :: xs).length = i + 1 + xs.length := by
      rw [List.length_cons]
      omega
    rw [List.cons_append, hadd]
    show find_stream_loop (xs ++ later) (i + 1) (find_stream_step i x r)
      = find_stream_loop later (i + 1 + xs.length)
          (find_stream_loop xs (i + 1) (find_stream_step i x r))
    exact ih (i + 1) (find_stream_step i x r)

theorem find_stream_loop_video_found (l : List AVStream) :
    ∀ (i : Nat) (r : StreamIndices),
      (∃ st ∈ l, st.codec_type = AVMediaType.VIDEO) → i + l.length ≤ 2147483648 →
      0 ≤ (find_stream_loop l i r).video_idx := by
  induction l with
  | nil =>
    intro i r h
    obtain ⟨st, hst, _⟩ := h
    cases hst
  | cons x xs ih =>
    intro i r h hlen
    simp only [List.length_cons] at hlen
    unfold find_stream_loop
    by_cases hr : 0 ≤ r.video_idx
    · rw [find_stream_loop_video_keep xs (i + 1) _
        (Or.inl (by rw [find_stream_step_video_keep i x r (Or.inr hr)]; exact hr)),
        find_stream_step_video_keep i x r (Or.inr hr)]
      exact hr
    · by_cases hx : x.codec_type = AVMediaType.VIDEO
      · have hstep := find_stream_step_video i x r hx (by omega)
        have hval : toInt32 (i : Int) = (i : Int) :=
          toInt32_of_lt _ (Int.natCast_nonneg _) (by omega)
        rw [find_stream_loop_video_keep xs (i + 1) _ (Or.inl (by rw [hstep, hval]; omega)),
          hstep, hval]
        omega
      · apply ih (i + 1) _ _ (by omega)
        obtain ⟨st, hst, ht⟩ := h
        rcases List.mem_cons.mp hst with h1 | h1
        · rw [h1] at ht
          exact absurd ht hx
        · exact ⟨st, h1, ht⟩

theorem find_stream_loop_audio_found (l : List AVStream) :
    ∀ (i : Nat) (r : StreamIndices),
      (∃ st ∈ l, st.codec_type = AVMediaType.AUDIO) → i + l.length ≤ 2147483648 →
      0 ≤ (find_stream_loop l i r).audio_idx := by
  induction l with
  | nil =>
    intro i r h
    obtain ⟨st, hst, _⟩ := h
    cases hst
  | cons x xs ih =>
    intro i r h hlen
    simp only [List.length_cons] at hlen
    unfold find_stream_loop
    by_cases hr : 0 ≤ r.audio_idx
    · rw [find_stream_loop_audio_keep xs (i + 1) _
        (Or.inl (by rw [find_stream_step_audio_keep i x r (Or.inr hr)]; exact hr)),
        find_stream_step_audio_keep i x r (Or.inr hr)]
      exact hr
    · by_cases hx : x.codec_type = AVMediaType.AUDIO
      · have hstep := find_stream_step_audio i x r hx (by omega)
        have hval : toInt32 (i : Int) = (i : Int) :=
          toInt32_of_lt _ (Int.natCast_nonneg _) (by omega)
        rw [find_stream_loop_audio_keep xs (i + 1) _ (Or.inl (by rw [hstep, hval]; omega)),
          hstep, hval]
        omega
      · apply ih (i + 1) _ _ (by omega)
        obtain ⟨st, hst, ht⟩ := h
        rcases List.mem_cons.mp hst with h1 | h1
        · rw [h1] at ht
          exact absurd ht hx
        · exact ⟨st, h1, ht⟩

/-- C4: for every list of at most `2^31` stream descriptors (stream indices are C `int`s),
`find_stream_indices` sets `video_idx` to the smallest index whose stream is video, or to -1
when none is, and `audio_idx` to the smallest index whose stream is audio, or to -1 when none
is; once the list has a stream of a type, streams that come later never change the index
for that type. -/
theorem find_stream_indices_first (fmt : AVFormatContext)
    (hn : fmt.streams.length ≤ 2147483648) :
    (∀ (i : Nat) (st : AVStream), fmt.streams[i]? = some st →
        st.codec_type = AVMediaType.VIDEO →
        (∀ (j : Nat) (sj : AVStream), j < i → fmt.streams[j]? = some sj →
          sj.codec_type ≠ AVMediaType.VIDEO) →
        (find_stream_indices fmt).video_idx = (i : Int)) ∧
    ((∀ st ∈ fmt.streams, st.codec_type ≠ AVMediaType.VIDEO) →
        (find_stream_indices fmt).video_idx = -1) ∧
    (∀ (i : Nat) (st : AVStream), fmt.streams[i]? = some st →
        st.codec_type = AVMediaType.AUDIO →
        (∀ (j : Nat) (sj : AVStream), j < i → fmt.streams[j]? = some sj →
          sj.codec_type ≠ AVMediaType.AUDIO) →
        (find_stream_indices fmt).audio_idx = (i : Int)) ∧
    ((∀ st ∈ fmt.streams, st.codec_type ≠ AVMediaType.AUDIO) →
        (find_stream_indices fmt).audio_idx = -1) ∧
    ((∃ st ∈ fmt.streams, st.codec_type = AVMediaType.VIDEO) →
        ∀ later : List AVStream,
          (find_stream_indices { streams := fmt.streams ++ later }).video_idx
            = (find_stream_indices fmt).video_idx) ∧
    ((∃ st ∈ fmt.streams, st.codec_type = AVMediaType.AUDIO) →
        ∀ later : List AVStream,
          (find_stream_indices { streams := fmt.streams ++ later }).audio_idx
            = (find_stream_indices fmt).audio_idx) := by
  refine ⟨?_, ?_, ?_, ?_, ?_, ?_⟩
  · intro i st hi ht hb
    have hlt := getElem_some_lt_length _ _ _ hi
    unfold find_stream_indices
    rw [find_stream_loop_video_first fmt.streams 0 _ i st (by decide) (by omega) hi ht hb]
    simp
  · intro h
    unfold find_stream_indices
    rw [find_stream_loop_video_keep fmt.streams 0 _ (Or.inr h)]
  · intro i st hi ht hb
    have hlt := getElem_some_lt_length _ _ _ hi
    unfold find_stream_indices
    rw [find_stream_loop_audio_first fmt.streams 0 _ i st (by decide) (by omega) hi ht hb]
    simp
  · intro h
    unfold find_stream_indices
    rw [find_stream_loop_audio_keep fmt.streams 0 _ (Or.inr h)]
  · intro h later
    unfold find_stream_indices
    simp only
    rw [find_stream_loop_append]
    exact find_stream_loop_video_keep later _ _
      (Or.inl (find_stream_loop_video_found fmt.streams 0 _ h (by omega)))
  · intro h later
    unfold find_stream_indices
    simp only
    rw [find_stream_loop_append]
    exact find_stream_loop_audio_keep later _ _
      (Or.inl (find_stream_loop_audio_found fmt.streams 0 _ h (by omega)))

/-! ## Packets without frames -/

/-- C9: if the decoder rejects the packet (`avcodec_send_packet` returns non-zero) or yields
no frame for it, `process_audio_packet` returns with the audio state, hence the buffer,
exactly as it was, and `process_video_packet`, whatever pointers it is given, returns having
issued no library call at all, in particular no texture update and no render call. -/
theorem packet_without_frames (send_ret : Int) (audio : AudioState)
    (aframes : List ResampledFrame) (vframes : Nat) (sws tex ren win : Bool) :
    (send_ret ≠ 0 ∨ aframes = [] → process_audio_packet send_ret aframes audio = some audio) ∧
    (send_ret ≠ 0 ∨ vframes = 0 →
      process_video_packet sws tex ren win send_ret vframes = some [] ∧
      ∀ es, process_video_packet sws tex ren win send_ret vframes = some es →
        ∀ e ∈ es, e.isRender = false) := by
  constructor
  · intro h
    unfold process_audio_packet
    by_cases hs : send_ret ≠ 0
    · rw [if_pos hs]
    · rw [if_neg hs]
      rcases h with h | h
      · exact absurd h hs
      · rw [h]
        rfl
  · intro h
    have hnil : process_video_packet sws tex ren win send_ret vframes = some [] := by
      unfold process_video_packet
      by_cases hs : send_ret ≠ 0
      · rw [if_pos hs]
      · rw [if_neg hs]
        rcases h with h | h
        · exact absurd h hs
        · rw [h]
          rfl
    refine ⟨hnil, ?_⟩
    rw [hnil]
    intro es hes e he
    simp only [Option.some.injEq] at hes
    rw [← hes] at he
    cases he

/-- Witness of C9: a rejected packet that carries a frame, and an accepted packet without
frames, on the buffer `5, 6`. -/
theorem packet_without_frames_witness :
    process_audio_packet (-11) [{ outbuf := [1, 2, 3, 4], nb := 1 }] { buffer := [5, 6] }
      = some { buffer := [5, 6] } ∧
    process_audio_packet 0 [] { buffer := [5, 6] } = some { buffer := [5, 6] } ∧
    process_video_packet true true true true (-11) 3 = some [] ∧
    process_video_packet false false false false 0 0 = some [] :=
  ⟨(packet_without_frames (-11) { buffer := [5, 6] }
      [{ outbuf := [1, 2, 3, 4], nb := 1 }] 3 true true true true).1 (Or.inl (by decide)),
   (packet_without_frames 0 { buffer := [5, 6] } [] 0 false false false false).1 (Or.inr rfl),
   ((packet_without_frames (-11) { buffer := [5, 6] }
      [{ outbuf := [1, 2, 3, 4], nb := 1 }] 3 true true true true).2 (Or.inl (by decide))).1,
   ((packet_without_frames 0 { buffer := [5, 6] } [] 0 false false false false).2
      (Or.inr rfl)).1⟩

/-! ## The playback loop -/

theorem sigint_at_trace (p : SigintPoint) (it : IterInput) (s : LoopState) :
    (sigint_at p it s).trace = s.trace := by
  unfold sigint_at handle_sigint
  split <;> rfl

theorem sigint_at_audio (p : SigintPoint) (it : IterInput) (s : LoopState) :
    (sigint_at p it s).audio = s.audio := by
  unfold sigint_at handle_sigint
  split <;> rfl

theorem sigint_at_running (p : SigintPoint) (it : IterInput) (s : LoopState) :
    (sigint_at p it s).g_running = (s.g_running && !decide (it.sigint = some p)) := by
  unfold sigint_at handle_sigint
  split
  · rename_i h
    simp [h]
  · rename_i h
    simp [h]

theorem handle_event_trace (e : SDL_Event) (s : LoopState) :
    (handle_event e s).trace = s.trace := by
  unfold handle_event
  split
  · rfl
  · split <;> rfl
  · rfl

theorem handle_event_audio (e : SDL_Event) (s : LoopState) :
    (handle_event e s).audio = s.audio := by
  unfold handle_event
  split
  · rfl
  · split <;> rfl
  · rfl

theorem handle_event_running (e : SDL_Event) (s : LoopState) :
    (handle_event e s).g_running
      = (s.g_running && !(e == SDL_Event.QUIT || e == SDL_Event.KEYDOWN SDLK_q)) := by
  cases e with
  | QUIT => simp [handle_event]
  | KEYDOWN sym =>
    unfold handle_event
    by_cases h : sym = SDLK_q
    · simp [h]
    · simp [h]
  | OTHER => simp [handle_event]

theorem poll_events_trace (es : List SDL_Event) :
    ∀ s : LoopState, (poll_events es s).trace = s.trace := by
  induction es with
  | nil => intro s; rfl
  | cons e es ih =>
    intro s
    unfold poll_events
    rw [ih, handle_event_trace]

theorem poll_events_audio (es : List SDL_Event) :
    ∀ s : LoopState, (poll_events es s).audio = s.audio := by
  induction es with
  | nil => intro s; rfl
  | cons e es ih =>
    intro s
    unfold poll_events
    rw [ih, handle_event_audio]

theorem poll_events_running (es : List SDL_Event) :
    ∀ s : LoopState, (poll_events es s).g_running
      = (s.g_running &&
          !(es.any fun e => e == SDL_Event.QUIT || e == SDL_Event.KEYDOWN SDLK_q)) := by
  induction es with
  | nil => intro s; simp [poll_events]
  | cons e es ih =>
    intro s
    unfold poll_events
    rw [ih, handle_event_running]
    simp only [List.any_cons, Bool.not_or, Bool.and_assoc]

theorem read_packet_trace (it : IterInput) (s : LoopState) :
    (read_packet it s).trace = s.trace ++ [Effect.av_read_frame] := by
  unfold read_packet
  simp only [sigint_at_trace, poll_events_trace]

theorem read_packet_audio (it : IterInput) (s : LoopState) :
    (read_packet it s).audio = s.audio := by
  unfold read_packet
  simp only [sigint_at_audio, poll_events_audio]

theorem read_packet_running (it : IterInput) (s : LoopState) :
    (read_packet it s).g_running =
      (s.g_running && !decide (it.sigint = some SigintPoint.beforeEvents)
        && !(it.events.any fun e => e == SDL_Event.QUIT || e == SDL_Event.KEYDOWN SDLK_q)
        && !decide (it.sigint = some SigintPoint.beforeRead)
        && !decide (it.sigint = some SigintPoint.afterRead)) := by
  unfold read_packet
  simp only [sigint_at_running, poll_events_running]

/-- Whenever `process_video_packet` is defined it issues the calls of
`video_packet_effects`; it is defined unless a frame meets a null `sws` or `win`. -/
theorem receive_video_frames_eq (sws tex ren win : Bool) (k : Nat) :
    receive_video_frames sws tex ren win k =
      if k = 0 ∨ (sws = true ∧ win = true) then some (video_frames_effects k) else none := by
  induction k with
  | zero => rfl
  | succ k ih =>
    unfold receive_video_frames
    cases sws <;> cases win <;> simp [ih, video_frames_effects]

theorem process_video_packet_eq (sws tex ren win : Bool) (send_ret : Int) (k : Nat) :
    process_video_packet sws tex ren win send_ret k =
      if send_ret ≠ 0 ∨ k = 0 ∨ (sws = true ∧ win = true) then
        some (video_packet_effects send_ret k)
      else none := by
  unfold process_video_packet video_packet_effects
  rw [receive_video_frames_eq]
  by_cases hs : send_ret ≠ 0
  · simp [hs]
  · simp [hs]

theorem process_video_packet_some (sws tex ren win : Bool) (send_ret : Int) (k : Nat)
    (es : List Effect) (h : process_video_packet sws tex ren win send_ret k = some es) :
    es = video_packet_effects send_ret k := by
  rw [process_video_packet_eq] at h
  split at h
  · simp only [Option.some.injEq] at h
    exact h.symm
  · cases h

theorem dispatch_running (cfg : LoopConfig) (it : IterInput) (s s1 : LoopState)
    (h : dispatch cfg it s = some s1) : s1.g_running = s.g_running := by
  unfold dispatch at h
  split at h
  · split at h
    · cases h
    · simp only [Option.some.injEq] at h
      rw [← h]
  · split at h
    · cases h
    · simp only [Option.some.injEq] at h
      rw [← h]
  · simp only [Option.some.injEq] at h
    rw [← h]

theorem dispatch_trace (cfg : LoopConfig) (it : IterInput) (s s1 : LoopState)
    (h : dispatch cfg it s = some s1) :
    s1.trace = s.trace ++
      (match route cfg it.stream_index with
       | .video => Effect.video_pipeline :: video_packet_effects it.send_ret it.video_frames
       | .audio => [Effect.audio_pipeline]
       | .discard => []) := by
  unfold dispatch at h
  split at h
  · split at h
    · cases h
    · rename_i es hes
      simp only [Option.some.injEq] at h
      rw [← h, process_video_packet_some _ _ _ _ _ _ _ hes]
  · split at h
    · cases h
    · simp only [Option.some.injEq] at h
      rw [← h]
  · simp only [Option.some.injEq] at h
    rw [← h, List.append_nil]

/-- What one pass through the loop body does to the state, whenever it is defined. -/
theorem loop_iteration_spec (cfg : LoopConfig) (it : IterInput) (s s1 : LoopState)
    (c : LoopControl) (h : loop_iteration cfg it s = some (c, s1)) :
    s1.trace = s.trace ++ iteration_effects cfg it ∧
    (c = LoopControl.brk ↔ it.read_ret = AVERROR_EOF) ∧
    (it.read_ret < 0 → s1.audio = s.audio) ∧
    (s1.g_running = true → s.g_running = true) ∧
    (it.stops = false → s1.g_running = s.g_running) ∧
    (c = LoopControl.next → it.stops = true → s1.g_running = false) := by
  have hstop : ∀ b : Bool, it.stops = true →
      (b && !decide (it.sigint = some SigintPoint.beforeEvents)
        && !(it.events.any fun e => e == SDL_Event.QUIT || e == SDL_Event.KEYDOWN SDLK_q)
        && !decide (it.sigint = some SigintPoint.beforeRead)
        && !decide (it.sigint = some SigintPoint.afterRead)
        && !decide (it.sigint = some SigintPoint.endOfIteration)) = false := by
    intro b hst
    unfold IterInput.stops at hst
    cases hsig : it.sigint with
    | none =>
      rw [hsig] at hst
      simp only [Option.isSome_none, Bool.false_or] at hst
      simp [hst]
    | some p => cases p <;> simp
  have hgo : it.stops = false →
      it.sigint = none ∧
      (it.events.any fun e => e == SDL_Event.QUIT || e == SDL_Event.KEYDOWN SDLK_q) = false := by
    intro hst
    unfold IterInput.stops at hst
    simp only [Bool.or_eq_false_iff] at hst
    refine ⟨?_, hst.2⟩
    cases hsig : it.sigint with
    | none => rfl
    | some p =>
      rw [hsig] at hst
      simp at hst
  unfold loop_iteration at h
  simp only at h
  split at h
  · rename_i heof
    simp only [Option.some.injEq, Prod.mk.injEq] at h
    obtain ⟨hc, hs1⟩ := h
    subst hc
    subst hs1
    refine ⟨?_, ?_, ?_, ?_, ?_, ?_⟩
    · rw [read_packet_trace]
      simp [iteration_effects, heof]
    · simp [heof]
    · intro _
      exact read_packet_audio it s
    · rw [read_packet_running]
      intro hr
      simp only [Bool.and_eq_true] at hr
      exact hr.1.1.1.1
    · intro hst
      obtain ⟨h1, h2⟩ := hgo hst
      rw [read_packet_running, h1, h2]
      simp
    · intro hc
      cases hc
  · rename_i hne
    split at h
    · rename_i hneg
      simp only [Option.some.injEq, Prod.mk.injEq] at h
      obtain ⟨hc, hs1⟩ := h
      subst hc
      subst hs1
      refine ⟨?_, ?_, ?_, ?_, ?_, ?_⟩
      · rw [sigint_at_trace]
        simp only [read_packet_trace]
        simp [iteration_effects, hne, hneg]
      · simp [hne]
      · intro _
        rw [sigint_at_audio]
        exact read_packet_audio it s
      · rw [sigint_at_running]
        simp only [read_packet_running]
        intro hr
        simp only [Bool.and_eq_true] at hr
        exact hr.1.1.1.1.1
      · intro hst
        obtain ⟨h1, h2⟩ := hgo hst
        rw [sigint_at_running]
        simp only [read_packet_running]
        rw [h1, h2]
        simp
      · intro _ hst
        rw [sigint_at_running]
        simp only [read_packet_running]
        exact hstop _ hst
    · rename_i hpos
      split at h
      · cases h
      · rename_i s2 hd
        simp only [Option.some.injEq, Prod.mk.injEq] at h
        obtain ⟨hc, hs1⟩ := h
        subst hc
        subst hs1
        have hdt := dispatch_trace cfg it _ s2 hd
        have hdr := dispatch_running cfg it _ s2 hd
        refine ⟨?_, ?_, ?_, ?_, ?_, ?_⟩
        · rw [sigint_at_trace]
          simp only [hdt, read_packet_trace]
          simp only [iteration_effects, if_neg hne, if_neg hpos]
          cases route cfg it.stream_index <;> simp
        · simp [hne]
        · intro hlt
          exact absurd hlt hpos
        · rw [sigint_at_running]
          simp only [hdr, read_packet_running]
          intro hr
          simp only [Bool.and_eq_true] at hr
          exact hr.1.1.1.1.1
        · intro hst
          obtain ⟨h1, h2⟩ := hgo hst
          rw [sigint_at_running]
          simp only [hdr, read_packet_running]
          rw [h1, h2]
          simp
        · intro _ hst
          rw [sigint_at_running]
          simp only [hdr, read_packet_running]
          exact hstop _ hst

theorem video_frames_effects_count (k : Nat) :
    (video_frames_effects k).count Effect.video_pipeline = 0 ∧
    (video_frames_effects k).count Effect.audio_pipeline = 0 ∧
    (video_frames_effects k).count Effect.av_read_frame = 0 := by
  induction k with
  | zero => exact ⟨rfl, rfl, rfl⟩
  | succ k ih =>
    unfold video_frames_effects
    simp only [List.count_append, ih.1, ih.2.1, ih.2.2]
    exact ⟨by decide, by decide, by decide⟩

theorem video_packet_effects_count (send_ret : Int) (k : Nat) :
    (video_packet_effects send_ret k).count Effect.video_pipeline = 0 ∧
    (video_packet_effects send_ret k).count Effect.audio_pipeline = 0 ∧
    (video_packet_effects send_ret k).count Effect.av_read_frame = 0 := by
  unfold video_packet_effects
  split
  · exact ⟨rfl, rfl, rfl⟩
  · exact video_frames_effects_count k

theorem route_video_iff (cfg : LoopConfig) (i : Int) :
    route cfg i = Route.video ↔ i = cfg.video_idx ∧ cfg.vctx.dec_ctx = true := by
  unfold route
  split
  · rename_i h
    simp [h]
  · rename_i h
    split <;> simp [h]

theorem route_audio_iff (cfg : LoopConfig) (i : Int) :
    route cfg i = Route.audio ↔
      ¬ (i = cfg.video_idx ∧ cfg.vctx.dec_ctx = true) ∧
        i = cfg.audio_idx ∧ cfg.actx.dec_ctx = true := by
  unfold route
  split
  · rename_i h
    simp [h]
  · rename_i h
    split
    · rename_i h2
      simp only [true_iff]
      exact ⟨h, h2⟩
    · rename_i h2
      simp [h2]

/-- The packets read and dispatched in one pass through the loop body. -/
theorem iteration_effects_count (cfg : LoopConfig) (it : IterInput) :
    countReads (iteration_effects cfg it) = 1 ∧
    (iteration_effects cfg it).count Effect.video_pipeline =
      (if 0 ≤ it.read_ret ∧ route cfg it.stream_index = Route.video then 1 else 0) ∧
    (iteration_effects cfg it).count Effect.audio_pipeline =
      (if 0 ≤ it.read_ret ∧ route cfg it.stream_index = Route.audio then 1 else 0) := by
  have heofneg : AVERROR_EOF < 0 := by decide
  unfold iteration_effects countReads
  split
  · rename_i h
    have : ¬ 0 ≤ it.read_ret := by omega
    simp [this]
  · split
    · rename_i h
      have : ¬ 0 ≤ it.read_ret := by omega
      simp [this]
    · rename_i h
      have h0 : 0 ≤ it.read_ret := by omega
      have hv := video_packet_effects_count it.send_ret it.video_frames
      cases hr : route cfg it.stream_index <;>
        simp [h0, List.count_cons, List.count_append, hv.1, hv.2.1, hv.2.2]

theorem video_packet_effects_isVideo (send_ret : Int) (k : Nat) :
    ∀ e ∈ video_packet_effects send_ret k, e.isVideo = true := by
  unfold video_packet_effects
  split
  · intro e he
    cases he
  · induction k with
    | zero =>
      intro e he
      cases he
    | succ k ih =>
      intro e he
      unfold video_frames_effects at he
      rw [List.mem_append] at he
      rcases he with he | he
      · unfold present_frame at he
        simp only [List.mem_cons, List.mem_singleton, List.not_mem_nil, or_false] at he
        rcases he with he | he | he | he | he | he <;> (rw [he]; rfl)
      · exact ih e he

theorem iteration_effects_no_video (cfg : LoopConfig) (it : IterInput)
    (h : cfg.vctx.dec_ctx = false) : ∀ e ∈ iteration_effects cfg it, e.isVideo = false := by
  have hr : route cfg it.stream_index ≠ Route.video := by
    rw [Ne, route_video_iff, h]
    simp
  unfold iteration_effects
  split
  · intro e he
    simp only [List.mem_singleton] at he
    rw [he]
    rfl
  · split
    · intro e he
      simp only [List.mem_cons, List.mem_singleton, List.not_mem_nil, or_false] at he
      rcases he with he | he <;> (rw [he]; rfl)
    · cases hroute : route cfg it.stream_index with
      | video => exact absurd hroute hr
      | audio =>
        intro e he
        simp only [List.mem_cons, List.mem_singleton, List.not_mem_nil, or_false] at he
        rcases he with he | he | he <;> (rw [he]; rfl)
      | discard =>
        intro e he
        simp only [List.mem_cons, List.mem_singleton, List.not_mem_nil, or_false] at he
        rcases he with he | he <;> (rw [he]; rfl)

/-- A loop whose flag is down does not run its body. -/
theorem playback_while_stopped (cfg : LoopConfig) (script : List IterInput) (s : LoopState)
    (h : s.g_running = false) : playback_while cfg script s = LoopResult.left s := by
  cases script with
  | nil => simp [playback_while, h]
  | cons it rest => simp [playback_while, h]

/-- Without a video decoder, whatever the loop adds to the trace is no video effect. -/
theorem playback_while_no_video (cfg : LoopConfig) (h : cfg.vctx.dec_ctx = false)
    (script : List IterInput) :
    ∀ s s1 : LoopState,
      (playback_while cfg script s = LoopResult.left s1 ∨
        playback_while cfg script s = LoopResult.running s1) →
      ∃ t, s1.trace = s.trace ++ t ∧ ∀ e ∈ t, e.isVideo = false := by
  induction script with
  | nil =>
    intro s s1 hres
    refine ⟨[], ?_, fun e he => by cases he⟩
    unfold playback_while at hres
    split at hres
    · rcases hres with hres | hres
      · cases hres
      · simp only [LoopResult.running.injEq] at hres
        rw [← hres, List.append_nil]
    · rcases hres with hres | hres
      · simp only [LoopResult.left.injEq] at hres
        rw [← hres, List.append_nil]
      · cases hres
  | cons it rest ih =>
    intro s s1 hres
    unfold playback_while at hres
    split at hres
    · split at hres
      · rcases hres with hres | hres <;> cases hres
      · rename_i s2 hit
        obtain ⟨ht, _⟩ := loop_iteration_spec cfg it s s2 _ hit
        rcases hres with hres | hres
        · simp only [LoopResult.left.injEq] at hres
          rw [← hres]
          exact ⟨_, ht, iteration_effects_no_video cfg it h⟩
        · cases hres
      · rename_i s2 hit
        obtain ⟨ht, _⟩ := loop_iteration_spec cfg it s s2 _ hit
        obtain ⟨t, ht2, hall⟩ := ih s2 s1 hres
        refine ⟨iteration_effects cfg it ++ t, ?_, ?_⟩
        · rw [ht2, ht, List.append_assoc]
        · intro e he
          rw [List.mem_append] at he
          rcases he with he | he
          · exact iteration_effects_no_video cfg it h e he
          · exact hall e he
    · refine ⟨[], ?_, fun e he => by cases he⟩
      rcases hres with hres | hres
      · simp only [LoopResult.left.injEq] at hres
        rw [← hres, List.append_nil]
      · cases hres

theorem loop_iteration_packet (cfg : LoopConfig) (it : IterInput) (s : LoopState)
    (hok : 0 ≤ it.read_ret) :
    loop_iteration cfg it s =
      match dispatch cfg it (read_packet it s) with
      | none => none
      | some s2 =>
        some (LoopControl.next,
          sigint_at SigintPoint.endOfIteration it
            { s2 with trace := s2.trace ++ [Effect.av_packet_unref] }) := by
  have heof : it.read_ret ≠ AVERROR_EOF := by
    intro h
    rw [h] at hok
    exact absurd hok (by decide)
  unfold loop_iteration
  simp only [if_neg heof, if_neg (not_lt.mpr hok)]

/-- C5: for every successfully read packet (`av_read_frame` returns a non-negative code),
the pass through the loop body hands it to `process_video_packet` exactly when its stream
index is `video_idx` and a video decoder exists: the pass is defined exactly when that call
is, the calls of `process_video_packet` stand in the trace between the read and
`av_packet_unref`, and the audio state is untouched; otherwise it hands the packet to
`process_audio_packet` exactly when its stream index is `audio_idx` and an audio decoder
exists: the pass is defined exactly when that call is, the audio state afterwards is the one
`process_audio_packet` returns, and no video call is issued; otherwise the packet goes to
neither: only the read and `av_packet_unref` happen and the audio state is untouched.
Without a video decoder nothing the loop does, over any script, is a call of the video
pipeline, a texture update or a render call. -/
theorem packet_routing (cfg : LoopConfig) :
    (∀ (it : IterInput) (s : LoopState), 0 ≤ it.read_ret →
      (it.stream_index = cfg.video_idx ∧ cfg.vctx.dec_ctx = true →
        (∀ es, process_video_packet cfg.vctx.sws_ctx cfg.vctx.texture cfg.vctx.renderer
              cfg.vctx.window it.send_ret it.video_frames = some es →
          ∃ s1, loop_iteration cfg it s = some (LoopControl.next, s1) ∧
            s1.trace = s.trace ++ Effect.av_read_frame :: Effect.video_pipeline ::
              (es ++ [Effect.av_packet_unref]) ∧
            s1.audio = s.audio) ∧
        (process_video_packet cfg.vctx.sws_ctx cfg.vctx.texture cfg.vctx.renderer
              cfg.vctx.window it.send_ret it.video_frames = none →
          loop_iteration cfg it s = none)) ∧
      (¬ (it.stream_index = cfg.video_idx ∧ cfg.vctx.dec_ctx = true) →
        it.stream_index = cfg.audio_idx ∧ cfg.actx.dec_ctx = true →
        (∀ a, process_audio_packet it.send_ret it.audio_frames s.audio = some a →
          ∃ s1, loop_iteration cfg it s = some (LoopControl.next, s1) ∧
            s1.audio = a ∧
            s1.trace = s.trace ++
              [Effect.av_read_frame, Effect.audio_pipeline, Effect.av_packet_unref]) ∧
        (process_audio_packet it.send_ret it.audio_frames s.audio = none →
          loop_iteration cfg it s = none)) ∧
      (¬ (it.stream_index = cfg.video_idx ∧ cfg.vctx.dec_ctx = true) →
        ¬ (it.stream_index = cfg.audio_idx ∧ cfg.actx.dec_ctx = true) →
        ∃ s1, loop_iteration cfg it s = some (LoopControl.next, s1) ∧
          s1.audio = s.audio ∧
          s1.trace = s.trace ++ [Effect.av_read_frame, Effect.av_packet_unref])) ∧
    (cfg.vctx.dec_ctx = false →
      ∀ (script : List IterInput) (s s1 : LoopState),
        (playback_while cfg script s = LoopResult.left s1 ∨
          playback_while cfg script s = LoopResult.running s1) →
        ∃ t, s1.trace = s.trace ++ t ∧
          ∀ e ∈ t, e ≠ Effect.video_pipeline ∧ e.isRender = false) := by
  constructor
  · intro it s hok
    have hit := loop_iteration_packet cfg it s hok
    refine ⟨?_, ?_, ?_⟩
    · intro hv
      have hr : route cfg it.stream_index = Route.video := (route_video_iff cfg _).mpr hv
      constructor
      · intro es hes
        rw [hit]
        unfold dispatch
        rw [hr]
        simp only [hes]
        refine ⟨_, rfl, ?_, ?_⟩
        · rw [sigint_at_trace]
          simp only [read_packet_trace, List.append_assoc, List.cons_append, List.nil_append]
        · rw [sigint_at_audio]
          exact read_packet_audio it s
      · intro hnone
        rw [hit]
        unfold dispatch
        rw [hr]
        simp only [hnone]
    · intro hnv ha
      have hr : route cfg it.stream_index = Route.audio :=
        (route_audio_iff cfg _).mpr ⟨hnv, ha⟩
      constructor
      · intro a hpa
        rw [hit]
        unfold dispatch
        rw [hr]
        simp only [read_packet_audio, hpa]
        refine ⟨_, rfl, ?_, ?_⟩
        · rw [sigint_at_audio]
        · rw [sigint_at_trace]
          simp only [read_packet_trace, List.append_assoc, List.cons_append, List.nil_append]
      · intro hnone
        rw [hit]
        unfold dispatch
        rw [hr]
        simp only [read_packet_audio, hnone]
    · intro hnv hna
      have hr : route cfg it.stream_index = Route.discard := by
        cases hroute : route cfg it.stream_index with
        | video => exact absurd ((route_video_iff cfg _).mp hroute) hnv
        | audio => exact absurd ((route_audio_iff cfg _).mp hroute).2 hna
        | discard => rfl
      rw [hit]
      unfold dispatch
      rw [hr]
      refine ⟨_, rfl, ?_, ?_⟩
      · rw [sigint_at_audio]
        exact read_packet_audio it s
      · rw [sigint_at_trace]
        simp only [read_packet_trace, List.append_assoc, List.cons_append, List.nil_append]
  · intro h script s s1 hres
    obtain ⟨t, ht, hall⟩ := playback_while_no_video cfg h script s s1 hres
    refine ⟨t, ht, fun e he => ?_⟩
    have hv := hall e he
    constructor
    · intro heq
      rw [heq] at hv
      cases hv
    · cases e <;> first | rfl | cases hv

theorem loop_iteration_eof (cfg : LoopConfig) (it : IterInput) (s : LoopState)
    (heof : it.read_ret = AVERROR_EOF) :
    loop_iteration cfg it s = some (LoopControl.brk, read_packet it s) := by
  unfold loop_iteration
  simp only [heof, if_true]

/-- C6: in every state of the loop in which the Running Flag is still true, if the read of
the next packet returns end-of-stream then the loop is left in that same pass, the only
library call of the pass is that read, no packet is handed to either pipeline, the audio
state is untouched, and `run_playback_loop` returns 0; without any signal or quit event in
the pass the flag is still true when the loop is left. -/
theorem end_of_stream_stops (cfg : LoopConfig) (yuv_ret : Int) (it : IterInput)
    (rest : List IterInput) (s : LoopState)
    (hrun : s.g_running = true) (heof : it.read_ret = AVERROR_EOF) :
    ∃ s1, playback_while cfg (it :: rest) s = LoopResult.left s1 ∧
      (¬ (0 ≤ cfg.video_idx ∧ yuv_ret < 0) →
        run_playback_loop cfg yuv_ret (it :: rest) s = Outcome.returned 0 s1) ∧
      s1.trace = s.trace ++ [Effect.av_read_frame] ∧
      s1.audio = s.audio ∧
      countDispatches s1.trace = countDispatches s.trace ∧
      (it.stops = false → s1.g_running = true) := by
  have hit := loop_iteration_eof cfg it s heof
  have hwhile : playback_while cfg (it :: rest) s = LoopResult.left (read_packet it s) := by
    unfold playback_while
    rw [if_pos hrun, hit]
  obtain ⟨_, _, _, _, hkeep, _⟩ := loop_iteration_spec cfg it s _ _ hit
  refine ⟨read_packet it s, hwhile, ?_, read_packet_trace it s, read_packet_audio it s, ?_, ?_⟩
  · intro hyuv
    unfold run_playback_loop
    rw [if_neg hyuv, hwhile]
  · rw [read_packet_trace]
    unfold countDispatches
    simp [List.count_append]
  · intro hst
    rw [hkeep hst, hrun]

/-- Witness of C6: the stream ends on the first read. -/
theorem end_of_stream_stops_witness :
    ({} : LoopState).g_running = true ∧
    ({ read_ret := AVERROR_EOF } : IterInput).read_ret = AVERROR_EOF ∧
    ∃ s1,
      playback_while { video_idx := 0, audio_idx := 1, vctx := videoReady,
                       actx := { dec_ctx := true } }
        [{ read_ret := AVERROR_EOF }, { stream_index := 0, video_frames := 1 }] {}
        = LoopResult.left s1 ∧
      s1.trace = [] ++ [Effect.av_read_frame] ∧ s1.g_running = true := by
  obtain ⟨s1, h1, _, h3, _, _, h6⟩ :=
    end_of_stream_stops { video_idx := 0, audio_idx := 1, vctx := videoReady,
                          actx := { dec_ctx := true } } 0 { read_ret := AVERROR_EOF }
      [{ stream_index := 0, video_frames := 1 }] {} rfl rfl
  exact ⟨rfl, rfl, s1, h1, h3, h6 rfl⟩

/-- C7: the Running Flag only ever goes down: the signal handler, the handling of an event,
the event loop and a whole pass through the loop body leave a false flag false; with the flag
false at the loop condition the loop is left at once, with no read and no dispatch, whatever
the rest of the script; and a pass during which the flag is flipped (signal at any point of
the pass, window close, key `q`) is the last one: the loop is left in the state that pass
produces, after exactly one read and at most one dispatch. -/
theorem running_flag_latch (cfg : LoopConfig) :
    (∀ s : LoopState, s.g_running = false →
      (handle_sigint s).g_running = false ∧
      (∀ e, (handle_event e s).g_running = false) ∧
      (∀ es, (poll_events es s).g_running = false) ∧
      (∀ it c s1, loop_iteration cfg it s = some (c, s1) → s1.g_running = false)) ∧
    (∀ (script : List IterInput) (s : LoopState), s.g_running = false →
      playback_while cfg script s = LoopResult.left s) ∧
    (∀ (it : IterInput) (rest : List IterInput) (s s1 : LoopState) (c : LoopControl),
      s.g_running = true → it.stops = true → loop_iteration cfg it s = some (c, s1) →
        playback_while cfg (it :: rest) s = LoopResult.left s1 ∧
        countReads s1.trace = countReads s.trace + 1 ∧
        countDispatches s1.trace ≤ countDispatches s.trace + 1) := by
  refine ⟨?_, ?_, ?_⟩
  · intro s hs
    refine ⟨rfl, ?_, ?_, ?_⟩
    · intro e
      rw [handle_event_running, hs]
      rfl
    · intro es
      rw [poll_events_running, hs]
      rfl
    · intro it c s1 hit
      obtain ⟨_, _, _, hmono, _, _⟩ := loop_iteration_spec cfg it s s1 c hit
      cases hr : s1.g_running with
      | false => rfl
      | true =>
        have := hmono hr
        rw [hs] at this
        cases this
  · intro script s hs
    exact playback_while_stopped cfg script s hs
  · intro it rest s s1 c hrun hstop hit
    obtain ⟨ht, _, _, _, _, hdown⟩ := loop_iteration_spec cfg it s s1 c hit
    obtain ⟨hreads, hv, ha⟩ := iteration_effects_count cfg it
    refine ⟨?_, ?_, ?_⟩
    · unfold playback_while
      rw [if_pos hrun, hit]
      cases c with
      | brk => rfl
      | next => exact playback_while_stopped cfg rest s1 (hdown rfl hstop)
    · rw [ht]
      unfold countReads at hreads ⊢
      rw [List.count_append, hreads]
    · rw [ht]
      unfold countDispatches
      rw [List.count_append, List.count_append, hv, ha]
      by_cases h1 : 0 ≤ it.read_ret ∧ route cfg it.stream_index = Route.video
      · have h2 : ¬ (0 ≤ it.read_ret ∧ route cfg it.stream_index = Route.audio) := by
          rintro ⟨_, h⟩
          rw [h1.2] at h
          cases h
        rw [if_pos h1, if_neg h2]
        omega
      · rw [if_neg h1]
        split <;> omega

/-- Witness of C4: a data stream, then video, audio and a second video stream. -/
theorem find_stream_indices_first_witness :
    ([{ codec_type := AVMediaType.DATA }, { codec_type := AVMediaType.VIDEO },
      { codec_type := AVMediaType.AUDIO }, { codec_type := AVMediaType.VIDEO }]
        : List AVStream).length ≤ 2147483648 ∧
    (find_stream_indices
      { streams := [{ codec_type := AVMediaType.DATA }, { codec_type := AVMediaType.VIDEO },
                    { codec_type := AVMediaType.AUDIO }, { codec_type := AVMediaType.VIDEO }] }
      ).video_idx = 1 ∧
    (find_stream_indices
      { streams := [{ codec_type := AVMediaType.DATA }, { codec_type := AVMediaType.VIDEO },
                    { codec_type := AVMediaType.AUDIO }, { codec_type := AVMediaType.VIDEO }] }
      ).audio_idx = 2 := by
  have h := find_stream_indices_first
    { streams := [{ codec_type := AVMediaType.DATA }, { codec_type := AVMediaType.VIDEO },
                  { codec_type := AVMediaType.AUDIO }, { codec_type := AVMediaType.VIDEO }] }
    (by decide)
  refine ⟨by decide, ?_, ?_⟩
  · refine h.1 1 { codec_type := AVMediaType.VIDEO } rfl rfl ?_
    intro j sj hj hsj
    have hj0 : j = 0 := by omega
    subst hj0
    simp only [List.getElem?_cons_zero, Option.some.injEq] at hsj
    rw [← hsj]
    decide
  · refine h.2.2.1 2 { codec_type := AVMediaType.AUDIO } rfl rfl ?_
    intro j sj hj hsj
    have hj0 : j = 0 ∨ j = 1 := by omega
    rcases hj0 with hj0 | hj0
    · subst hj0
      simp only [List.getElem?_cons_zero, Option.some.injEq] at hsj
      rw [← hsj]
      decide
    · subst hj0
      simp only [List.getElem?_cons_succ, List.getElem?_cons_zero, Option.some.injEq] at hsj
      rw [← hsj]
      decide

/-- Witness of C5: with both decoders present a video packet with one frame is decoded and
presented, an audio packet with one frame of four bytes lands in the audio buffer; and with a
video stream at index 0 but no video decoder, a script of a video packet, an audio packet and
end-of-stream issues no video call. -/
theorem packet_routing_witness :
    (∃ s1,
      loop_iteration { video_idx := 0, audio_idx := 1, vctx := videoReady,
                       actx := { dec_ctx := true } }
        { stream_index := 0, video_frames := 1 } {} = some (LoopControl.next, s1) ∧
      s1.trace = [] ++ Effect.av_read_frame :: Effect.video_pipeline ::
        (present_frame ++ [Effect.av_packet_unref]) ∧
      s1.audio = {}) ∧
    (∃ s1,
      loop_iteration { video_idx := 0, audio_idx := 1, vctx := videoReady,
                       actx := { dec_ctx := true } }
        { stream_index := 1, audio_frames := [{ outbuf := [1, 2, 3, 4], nb := 1 }] } {}
        = some (LoopControl.next, s1) ∧
      s1.audio = { buffer := [1, 2, 3, 4] } ∧
      s1.trace = [] ++ [Effect.av_read_frame, Effect.audio_pipeline, Effect.av_packet_unref]) ∧
    ∃ t, [Effect.av_read_frame, Effect.av_packet_unref, Effect.av_read_frame,
          Effect.audio_pipeline, Effect.av_packet_unref, Effect.av_read_frame] = [] ++ t ∧
      ∀ e ∈ t, e ≠ Effect.video_pipeline ∧ e.isRender = false := by
  refine ⟨?_, ?_, ?_⟩
  · exact (((packet_routing
        { video_idx := 0, audio_idx := 1, vctx := videoReady,
          actx := { dec_ctx := true } }).1
      { stream_index := 0, video_frames := 1 } {} (by decide)).1 ⟨rfl, rfl⟩).1
      present_frame (by decide)
  · exact (((packet_routing
        { video_idx := 0, audio_idx := 1, vctx := videoReady,
          actx := { dec_ctx := true } }).1
      { stream_index := 1, audio_frames := [{ outbuf := [1, 2, 3, 4], nb := 1 }] } {}
      (by decide)).2.1 (by decide) ⟨rfl, rfl⟩).1
      { buffer := [1, 2, 3, 4] } (by decide)
  · exact (packet_routing
        { video_idx := 0, audio_idx := 1, vctx := {}, actx := { dec_ctx := true } }).2 rfl
      [{ stream_index := 0, video_frames := 1 },
       { stream_index := 1, audio_frames := [{ outbuf := [1, 2, 3, 4], nb := 1 }] },
       { read_ret := AVERROR_EOF }] {}
      { g_running := true, audio := { buffer := [1, 2, 3, 4] },
        trace := [Effect.av_read_frame, Effect.av_packet_unref, Effect.av_read_frame,
                  Effect.audio_pipeline, Effect.av_packet_unref, Effect.av_read_frame] }
      (Or.inl (by decide))

/-- Witness of C7: a `SIGINT` right after the read of a video packet; the packet is still
decoded and presented, then the loop is left although the script goes on. -/
theorem running_flag_latch_witness :
    ({} : LoopState).g_running = true ∧
    ({ sigint := some SigintPoint.afterRead, stream_index := 0, video_frames := 1 }
      : IterInput).stops = true ∧
    playback_while { video_idx := 0, audio_idx := 1, vctx := videoReady,
                     actx := { dec_ctx := true } }
      [{ sigint := some SigintPoint.afterRead, stream_index := 0, video_frames := 1 },
       { stream_index := 0, video_frames := 1 }] {}
      = LoopResult.left
          { g_running := false, audio := {},
            trace := [Effect.av_read_frame, Effect.video_pipeline, Effect.sws_scale,
                      Effect.SDL_UpdateYUVTexture, Effect.SDL_GetWindowSize,
                      Effect.SDL_RenderClear, Effect.SDL_RenderCopy, Effect.SDL_RenderPresent,
                      Effect.av_packet_unref] } :=
  ⟨rfl, rfl,
   ((running_flag_latch
        { video_idx := 0, audio_idx := 1, vctx := videoReady,
          actx := { dec_ctx := true } }).2.2
      { sigint := some SigintPoint.afterRead, stream_index := 0, video_frames := 1 }
      [{ stream_index := 0, video_frames := 1 }] {}
      { g_running := false, audio := {},
        trace := [Effect.av_read_frame, Effect.video_pipeline, Effect.sws_scale,
                  Effect.SDL_UpdateYUVTexture, Effect.SDL_GetWindowSize,
                  Effect.SDL_RenderClear, Effect.SDL_RenderCopy, Effect.SDL_RenderPresent,
                  Effect.av_packet_unref] }
      LoopControl.next rfl rfl (by decide)).1⟩

/-! ## Decoder set-up, case by case -/

theorem init_audio_decoder_stream (version : Nat) (fmt : AVFormatContext) (audio_idx : Int)
    (env : AudioDecoderEnv) (actx : AudioContext) (st : AVStream) (hidx : ¬ audio_idx < 0)
    (hst : fmt.streams.get? audio_idx.toNat = some st) :
    (init_audio_decoder version fmt audio_idx env actx).outcome =
      if st.decoder_found = false then Call.returned false actx
      else if env.open2_ret < 0 then Call.exited 1
      else if swr_alloc_failed version env = true then Call.exited 1
      else if env.swr_init_ret < 0 then Call.exited 1
      else Call.returned true
        { actx with dec_ctx := true,
                    swr_ctx := some (resampler_options version env actx.state) } := by
  unfold init_audio_decoder swr_alloc_failed
  rw [if_neg hidx, hst]
  simp only
  by_cases hd : st.decoder_found = false
  · simp [hd]
  · by_cases ho : env.open2_ret < 0
    · simp [hd, ho]
    · by_cases hok : env.swr_alloc_ok = true
      · by_cases hv : 57 ≤ version
        · by_cases hr : env.swr_alloc_ret < 0
          · simp [hd, ho, hok, hv, hr]
          · simp [hd, ho, hok, hv, hr]
        · simp [hd, ho, hok, hv]
      · simp only [Bool.not_eq_true] at hok
        by_cases hv : 57 ≤ version
        · simp [hd, ho, hok, hv]
        · simp [hd, ho, hok, hv]

/-- Once the decoder is found and opened, `init_audio_decoder` calls the resampler
allocation with the options of `resampler_options`. -/
theorem init_audio_decoder_swr_alloc (version : Nat) (fmt : AVFormatContext)
    (audio_idx : Int) (env : AudioDecoderEnv) (actx : AudioContext) (st : AVStream)
    (hidx : ¬ audio_idx < 0) (hst : fmt.streams.get? audio_idx.toNat = some st)
    (hdec : st.decoder_found = true) (hopen : ¬ env.open2_ret < 0) :
    (init_audio_decoder version fmt audio_idx env actx).swr_alloc
      = some (resampler_options version env actx.state) := by
  unfold init_audio_decoder
  rw [if_neg hidx, hst]
  simp only [hdec, Bool.true_eq_false, if_false, if_neg hopen]

/-- C10, as amended: whenever `init_audio_decoder` finds and opens the decoder, it calls
the resampler allocation, and with these layouts.  Built against FFmpeg 5 or later, for every
channel count `c` that the source decoder declares, the input layout has `c` channels when
`c > 0` and 2 channels when `c <= 0`, and the output layout has `dst_channels = 2` channels.
Built against an older FFmpeg, the input layout is the layout mask the decoder declares, or
with none declared and `c >= 0` the default layout for `c` channels, for 2 channels when
`c = 0`, and the output layout is the default layout for `dst_channels = 2` channels.  The
resampler context that a successful `init_audio_decoder` leaves is the one allocated with
these options. -/
theorem resampler_channel_layouts (version : Nat) (fmt : AVFormatContext) (audio_idx : Int)
    (env : AudioDecoderEnv) (st : AVStream)
    (hidx : 0 ≤ audio_idx) (hst : fmt.streams.get? audio_idx.toNat = some st)
    (hdec : st.decoder_found = true) (hopen : 0 ≤ env.open2_ret) :
    ∃ opts, (init_audio_decoder version fmt audio_idx env {}).swr_alloc = some opts ∧
      (57 ≤ version →
        opts.in_ch_layout.nb_channels
          = (if 0 < env.ch_layout.nb_channels then env.ch_layout.nb_channels else 2) ∧
        ((0 < env.ch_layout.nb_channels → opts.in_ch_layout = ChannelLayout.layout env.ch_layout)
          ∧ (env.ch_layout.nb_channels ≤ 0 →
              opts.in_ch_layout = ChannelLayout.layout (av_channel_layout_default 2))) ∧
        opts.out_ch_layout = ChannelLayout.layout (av_channel_layout_default 2) ∧
        opts.out_ch_layout.nb_channels = 2) ∧
      (version < 57 →
        (env.channel_layout = 0 → 0 ≤ env.channels →
          opts.in_ch_layout = ChannelLayout.mask
            (env.av_get_default_channel_layout
              (if env.channels = 0 then 2 else env.channels))) ∧
        (env.channel_layout ≠ 0 → opts.in_ch_layout = ChannelLayout.mask env.channel_layout) ∧
        opts.out_ch_layout = ChannelLayout.mask (env.av_get_default_channel_layout 2)) ∧
      (∀ actx, (init_audio_decoder version fmt audio_idx env {}).outcome
            = Call.returned true actx →
        actx.swr_ctx = some opts ∧ actx.state.dst_channels = 2) := by
  have hidx1 : ¬ audio_idx < 0 := not_lt.mpr hidx
  have hopen1 : ¬ env.open2_ret < 0 := not_lt.mpr hopen
  refine ⟨resampler_options version env {},
    init_audio_decoder_swr_alloc version fmt audio_idx env {} st hidx1 hst hdec hopen1,
    ?_, ?_, ?_⟩
  · intro hv
    unfold resampler_options
    rw [if_pos hv]
    simp only [av_channel_layout_copy, av_channel_layout_default, ChannelLayout.nb_channels]
    by_cases hc : 0 < env.ch_layout.nb_channels
    · have hle : ¬ env.ch_layout.nb_channels ≤ 0 := by omega
      simp [hc, hle]
    · have hle : env.ch_layout.nb_channels ≤ 0 := by omega
      simp [hc, hle]
  · intro hv
    have hnv : ¬ 57 ≤ version := by omega
    unfold resampler_options
    rw [if_neg hnv]
    refine ⟨?_, ?_, rfl⟩
    · intro hl _
      simp only [hl, if_true]
    · intro hl
      simp only [if_neg hl]
  · intro actx h
    rw [init_audio_decoder_stream _ _ _ _ _ st hidx1 hst] at h
    simp only [hdec, Bool.true_eq_false, if_false, if_neg hopen1] at h
    split at h
    · cases h
    · split at h
      · cases h
      · simp only [Call.returned.injEq, true_and] at h
        rw [← h]
        exact ⟨rfl, rfl⟩

/-- Witness of C10: an audio stream at index 0 whose decoder declares no channels, built
against FFmpeg 5. -/
theorem resampler_channel_layouts_witness :
    ∃ opts,
      (init_audio_decoder 59 { streams := [{ codec_type := AVMediaType.AUDIO }] } 0
          { ch_layout := { nb_channels := 0 } } {}).swr_alloc = some opts ∧
      opts.in_ch_layout.nb_channels = 2 ∧ opts.out_ch_layout.nb_channels = 2 := by
  obtain ⟨opts, h1, h2, _, _⟩ :=
    resampler_channel_layouts 59 { streams := [{ codec_type := AVMediaType.AUDIO }] } 0
      { ch_layout := { nb_channels := 0 } } { codec_type := AVMediaType.AUDIO }
      (by decide) rfl rfl (by decide)
  obtain ⟨h3, _, _, h4⟩ := h2 (by decide)
  refine ⟨opts, h1, ?_, h4⟩
  rw [h3]
  decide

/-- C10 fails as stated when built against FFmpeg 4: a decoder that declares `c = 0`
channels together with the mono layout mask `0x4` has that mask handed to the resampler, one
channel and not two.  The table is FFmpeg's: mono is `0x4`, stereo `0x3`. -/
theorem resampler_legacy_layout :
    (init_audio_decoder 56 { streams := [{ codec_type := AVMediaType.AUDIO }] } 0
        { channels := 0, channel_layout := 4,
          av_get_default_channel_layout := fun n => if n = 1 then 4 else if n = 2 then 3 else 0 }
        {}).swr_alloc.map (fun o => (o.in_ch_layout, o.in_ch_layout.nb_channels))
      = some (ChannelLayout.mask 4, 1) := by
  decide

/-! ## Exit codes -/

end fplay
